import Mathlib

/-!
Shallow embedding of the STUDENT-PANNEL-PRO student practice application:
the client progress store (js/progress.js), the backend connector
(backend/api.js), the Google Apps Script backend handlers, and the quiz
engine (js/engine.js).  Machine numbers are modelled as Nat (timestamps,
scores, percentages) and ℚ (raw JSON numbers), strings as String, and
browser storage as explicit state threaded through the functions.
-/

namespace StudentPanel

/-- JavaScript Math.round of score / total * 100 for nonnegative inputs:
the floor of the value plus one half, written over naturals.  This is the
expression Math.round((score / total) * 100) used by Progress.saveResult
and API.syncResult. -/
def roundPct (score total : Nat) : Nat :=
  (200 * score + total) / (2 * total)

/-- One stored result entry for a subject/level/set, as written to the
grammarhub_progress_v2 localStorage object by Progress.saveResult and
Progress._mergeBackendData. -/
structure Entry where
  score : Nat
  total : Nat
  percentage : Nat
  date : String
  timestamp : Nat
  timeTaken : Nat
deriving DecidableEq, Repr

/-- The _meta.lastAttempted record maintained by Progress.saveResult and
Progress._mergeBackendData. -/
structure LastAttempted where
  subject : String
  level : String
  set : String
  percentage : Nat
  date : String
  timestamp : Nat
deriving DecidableEq, Repr

/-- The entries of the local progress object, indexed by subject, level and
set key. -/
abbrev EntriesMap : Type := String → String → String → Option Entry

/-- The local progress store: the nested result entries plus the
_meta.lastAttempted record. -/
structure LocalStore where
  entries : EntriesMap
  lastAttempted : Option LastAttempted

/-- The JavaScript expression entry?.percentage || 0 over an optional
stored entry. -/
def pctOf : Option Entry → Nat
  | some e => e.percentage
  | none => 0

/-- The JavaScript expression entry?.timestamp || 0 over an optional
stored entry. -/
def tsOf : Option Entry → Nat
  | some e => e.timestamp
  | none => 0

/-- Progress.saveResult (js/progress.js).  Computes the attempt
percentage, always rewrites _meta.lastAttempted, and overwrites the entry
of the given subject/level/set exactly when the new percentage is at
least the stored best.  The wall clock date string and Date.now()
timestamp are passed explicitly.  Returns the updated store and the
percentage. -/
def saveResult (st : LocalStore) (subject level setKey : String)
    (score total timeTaken : Nat) (date : String) (ts : Nat) :
    LocalStore × Nat :=
  let pct := roundPct score total
  let best := pctOf (st.entries subject level setKey)
  let meta : LastAttempted :=
    { subject := subject, level := level, set := setKey,
      percentage := pct, date := date, timestamp := ts }
  let entries' : EntriesMap :=
    if best ≤ pct then
      fun s l k =>
        if s = subject ∧ l = level ∧ k = setKey then
          some { score := score, total := total, percentage := pct,
                 date := date, timestamp := ts, timeTaken := timeTaken }
        else st.entries s l k
    else st.entries
  ({ entries := entries', lastAttempted := some meta }, pct)

/-- C3: for every call with total > 0, Progress.saveResult returns
Math.round(score/total*100), overwrites the stored entry for that
subject/level/set exactly when the new percentage is at least the stored
best, and leaves that entry unchanged when the new percentage is strictly
lower. -/
theorem saveResult_best_score (st : LocalStore) (subject level setKey : String)
    (score total timeTaken : Nat) (date : String) (ts : Nat)
    (htotal : 0 < total) :
    (saveResult st subject level setKey score total timeTaken date ts).2 =
      (200 * score + total) / (2 * total) ∧
    (pctOf (st.entries subject level setKey) ≤
        (saveResult st subject level setKey score total timeTaken date ts).2 →
      (saveResult st subject level setKey score total timeTaken date ts).1.entries
          subject level setKey =
        some { score := score, total := total,
               percentage := roundPct score total,
               date := date, timestamp := ts, timeTaken := timeTaken }) ∧
    ((saveResult st subject level setKey score total timeTaken date ts).2 <
        pctOf (st.entries subject level setKey) →
      (saveResult st subject level setKey score total timeTaken date ts).1.entries
          subject level setKey = st.entries subject level setKey) := by
  refine ⟨rfl, ?_, ?_⟩
  · intro hle
    simp only [saveResult, roundPct] at hle ⊢
    rw [if_pos hle, if_pos ⟨rfl, rfl, rfl⟩]
  · intro hlt
    simp only [saveResult, roundPct] at hlt ⊢
    rw [if_neg (by omega)]

/-- Witness for C3 at a concrete input: empty store, score 7 of 9. -/
theorem saveResult_best_score_witness :
    (0 : Nat) < 9 ∧
    ((saveResult ⟨fun _ _ _ => none, none⟩ "tenses" "high" "1" 7 9 30 "d" 5).2 =
        (200 * 7 + 9) / (2 * 9) ∧
      (pctOf ((fun _ _ _ => none : EntriesMap) "tenses" "high" "1") ≤
          (saveResult ⟨fun _ _ _ => none, none⟩ "tenses" "high" "1" 7 9 30 "d" 5).2 →
        (saveResult ⟨fun _ _ _ => none, none⟩ "tenses" "high" "1" 7 9 30 "d" 5).1.entries
            "tenses" "high" "1" =
          some { score := 7, total := 9, percentage := roundPct 7 9,
                 date := "d", timestamp := 5, timeTaken := 30 }) ∧
      ((saveResult ⟨fun _ _ _ => none, none⟩ "tenses" "high" "1" 7 9 30 "d" 5).2 <
          pctOf ((fun _ _ _ => none : EntriesMap) "tenses" "high" "1") →
        (saveResult ⟨fun _ _ _ => none, none⟩ "tenses" "high" "1" 7 9 30 "d" 5).1.entries
            "tenses" "high" "1" =
          (fun _ _ _ => none : EntriesMap) "tenses" "high" "1")) :=
  ⟨by decide,
   saveResult_best_score ⟨fun _ _ _ => none, none⟩ "tenses" "high" "1" 7 9 30 "d" 5
     (by decide)⟩

/-- C10: every call of Progress.saveResult rewrites _meta.lastAttempted to
the new attempt, entries at every other subject/level/set key are
unchanged, and when the new percentage is strictly below the stored best
the entry map is unchanged everywhere. -/
theorem saveResult_lastAttempted_frame (st : LocalStore)
    (subject level setKey : String)
    (score total timeTaken : Nat) (date : String) (ts : Nat)
    (htotal : 0 < total) :
    (saveResult st subject level setKey score total timeTaken date ts).1.lastAttempted =
      some { subject := subject, level := level, set := setKey,
             percentage :=
               (saveResult st subject level setKey score total timeTaken date ts).2,
             date := date, timestamp := ts } ∧
    (∀ s l k, ¬(s = subject ∧ l = level ∧ k = setKey) →
      (saveResult st subject level setKey score total timeTaken date ts).1.entries s l k =
        st.entries s l k) ∧
    ((saveResult st subject level setKey score total timeTaken date ts).2 <
        pctOf (st.entries subject level setKey) →
      ∀ s l k,
        (saveResult st subject level setKey score total timeTaken date ts).1.entries s l k =
          st.entries s l k) := by
  refine ⟨rfl, ?_, ?_⟩
  · intro s l k hne
    simp only [saveResult]
    split
    · exact if_neg hne
    · rfl
  · intro hlt s l k
    simp only [saveResult] at hlt ⊢
    rw [if_neg (by omega)]

/-- Witness for C10 at a concrete input: a store whose best for the key is
90, a new attempt worth 50 percent, an untouched neighbour key. -/
theorem saveResult_lastAttempted_frame_witness :
    (0 : Nat) < 2 ∧
    ((saveResult
        ⟨fun s l k =>
            if s = "tenses" ∧ l = "high" ∧ k = "1" then
              some { score := 9, total := 10, percentage := 90,
                     date := "d0", timestamp := 1, timeTaken := 4 }
            else none, none⟩
        "tenses" "high" "1" 1 2 7 "d1" 9).1.lastAttempted =
      some { subject := "tenses", level := "high", set := "1",
             percentage :=
               (saveResult
                  ⟨fun s l k =>
                      if s = "tenses" ∧ l = "high" ∧ k = "1" then
                        some { score := 9, total := 10, percentage := 90,
                               date := "d0", timestamp := 1, timeTaken := 4 }
                      else none, none⟩
                  "tenses" "high" "1" 1 2 7 "d1" 9).2,
             date := "d1", timestamp := 9 }) :=
  ⟨by decide,
   (saveResult_lastAttempted_frame
      ⟨fun s l k =>
          if s = "tenses" ∧ l = "high" ∧ k = "1" then
            some { score := 9, total := 10, percentage := 90,
                   date := "d0", timestamp := 1, timeTaken := 4 }
          else none, none⟩
      "tenses" "high" "1" 1 2 7 "d1" 9 (by decide)).1⟩

/-!
Progress._mergeBackendData (js/progress.js): merge the remote progress
object fetched from the backend into the local store, keeping the best
score for each subject/level/set.  The remote object is modelled as
nested association lists with string keys, mirroring the Object.keys
iteration of the source.
-/

/-- Accumulator of the merge loop: the entries being updated plus the
running latestAttempt variable. -/
structure MergeAcc where
  entries : EntriesMap
  latest : Option LastAttempted

/-- The timestamp expression lastAttempted?.timestamp || 0 of the merge
loop. -/
def latestTsOf : Option LastAttempted → Nat
  | some a => a.timestamp
  | none => 0

/-- The entry written by the merge for a remote entry: the source copies
the remote fields, defaulting date, timestamp and timeTaken (a no-op in
this typed model). -/
def mergedEntry (re : Entry) : Entry :=
  { score := re.score, total := re.total, percentage := re.percentage,
    date := re.date, timestamp := re.timestamp, timeTaken := re.timeTaken }

/-- The body of the innermost merge loop for one remote set entry:
replace the stored entry when there is no local entry, the remote
percentage is strictly greater, or the percentages are equal and the
remote timestamp is strictly newer; then update latestAttempt. -/
def mergeSetStep (acc : MergeAcc) (subject level setKey : String)
    (re : Entry) : MergeAcc :=
  let le := acc.entries subject level setKey
  let remotePct := re.percentage
  let localPct := pctOf le
  let entries' : EntriesMap :=
    if le = none ∨ localPct < remotePct ∨
        (remotePct = localPct ∧ tsOf le < re.timestamp) then
      fun s l k =>
        if s = subject ∧ l = level ∧ k = setKey then some (mergedEntry re)
        else acc.entries s l k
    else acc.entries
  let entryTs := re.timestamp
  let latest' :=
    if acc.latest = none ∨ latestTsOf acc.latest < entryTs then
      some { subject := subject, level := level, set := setKey,
             percentage := remotePct, date := re.date, timestamp := entryTs }
    else acc.latest
  { entries := entries', latest := latest' }

/-- Loop over the set keys of one remote level, skipping the _meta key. -/
def mergeSets (acc : MergeAcc) (subject level : String)
    (sets : List (String × Entry)) : MergeAcc :=
  sets.foldl
    (fun a p => if p.1 = "_meta" then a else mergeSetStep a subject level p.1 p.2)
    acc

/-- Loop over the level keys of one remote subject, skipping _meta. -/
def mergeLevels (acc : MergeAcc) (subject : String)
    (levels : List (String × List (String × Entry))) : MergeAcc :=
  levels.foldl
    (fun a p => if p.1 = "_meta" then a else mergeSets a subject p.1 p.2)
    acc

/-- The remote progress object: subjects, each a list of levels, each a
list of set entries. -/
abbrev RemoteData : Type :=
  List (String × List (String × List (String × Entry)))

/-- Loop over the subject keys of the remote object, skipping the _meta
and success keys. -/
def mergeSubjects (acc : MergeAcc) (remote : RemoteData) : MergeAcc :=
  remote.foldl
    (fun a p =>
      if p.1 = "_meta" ∨ p.1 = "success" then a else mergeLevels a p.1 p.2)
    acc

/-- Progress._mergeBackendData: fold the remote object into the local
store, then write the tracked latestAttempt into _meta.lastAttempted. -/
def mergeBackendData (remote : RemoteData) (st : LocalStore) : LocalStore :=
  let acc := mergeSubjects ⟨st.entries, st.lastAttempted⟩ remote
  { entries := acc.entries, lastAttempted := acc.latest }

/-- Unfolding equation of the set fold on a cons cell. -/
theorem mergeSets_cons (acc : MergeAcc) (subject level : String)
    (p : String × Entry) (t : List (String × Entry)) :
    mergeSets acc subject level (p :: t) =
      mergeSets (if p.1 = "_meta" then acc else mergeSetStep acc subject level p.1 p.2)
        subject level t := rfl

/-- Unfolding equation of the level fold on a cons cell. -/
theorem mergeLevels_cons (acc : MergeAcc) (subject : String)
    (p : String × List (String × Entry))
    (t : List (String × List (String × Entry))) :
    mergeLevels acc subject (p :: t) =
      mergeLevels (if p.1 = "_meta" then acc else mergeSets acc subject p.1 p.2)
        subject t := rfl

/-- Unfolding equation of the subject fold on a cons cell. -/
theorem mergeSubjects_cons (acc : MergeAcc)
    (p : String × List (String × List (String × Entry))) (t : RemoteData) :
    mergeSubjects acc (p :: t) =
      mergeSubjects
        (if p.1 = "_meta" ∨ p.1 = "success" then acc else mergeLevels acc p.1 p.2)
        t := rfl

/-- One merge step never decreases the stored percentage at any key. -/
theorem mergeSetStep_pct_le (acc : MergeAcc) (subject level setKey : String)
    (re : Entry) (s l k : String) :
    pctOf (acc.entries s l k) ≤
      pctOf ((mergeSetStep acc subject level setKey re).entries s l k) := by
  simp only [mergeSetStep]
  split
  · rename_i hc
    by_cases hk : s = subject ∧ l = level ∧ k = setKey
    · obtain ⟨rfl, rfl, rfl⟩ := hk
      simp only [if_pos (⟨rfl, rfl, rfl⟩ : s = s ∧ l = l ∧ k = k)]
      rcases hc with h | h | h
      · simp [h, pctOf, mergedEntry]
      · exact le_of_lt (lt_of_le_of_lt (le_refl _) h) |>.trans
          (by simp [pctOf, mergedEntry])
      · simp [pctOf, mergedEntry, h.1]
    · simp only [if_neg hk]
      exact le_refl _
  · exact le_refl _

/-- A merge step leaves entries at other keys unchanged. -/
theorem mergeSetStep_frame (acc : MergeAcc) (subject level setKey : String)
    (re : Entry) (s l k : String)
    (h : ¬(s = subject ∧ l = level ∧ k = setKey)) :
    (mergeSetStep acc subject level setKey re).entries s l k =
      acc.entries s l k := by
  simp only [mergeSetStep]
  split
  · exact if_neg h
  · rfl

/-- Folding sets never decreases the stored percentage at any key. -/
theorem mergeSets_pct_le (sets : List (String × Entry)) (acc : MergeAcc)
    (subject level : String) (s l k : String) :
    pctOf (acc.entries s l k) ≤
      pctOf ((mergeSets acc subject level sets).entries s l k) := by
  induction sets generalizing acc with
  | nil => exact le_refl _
  | cons p t ih =>
    rw [mergeSets_cons]
    by_cases hm : p.1 = "_meta"
    · rw [if_pos hm]; exact ih acc
    · rw [if_neg hm]
      exact le_trans (mergeSetStep_pct_le acc subject level p.1 p.2 s l k) (ih _)

/-- Folding levels never decreases the stored percentage at any key. -/
theorem mergeLevels_pct_le (levels : List (String × List (String × Entry)))
    (acc : MergeAcc) (subject : String) (s l k : String) :
    pctOf (acc.entries s l k) ≤
      pctOf ((mergeLevels acc subject levels).entries s l k) := by
  induction levels generalizing acc with
  | nil => exact le_refl _
  | cons p t ih =>
    rw [mergeLevels_cons]
    by_cases hm : p.1 = "_meta"
    · rw [if_pos hm]; exact ih acc
    · rw [if_neg hm]
      exact le_trans (mergeSets_pct_le p.2 acc subject p.1 s l k) (ih _)

/-- Folding subjects never decreases the stored percentage at any key. -/
theorem mergeSubjects_pct_le (remote : RemoteData) (acc : MergeAcc)
    (s l k : String) :
    pctOf (acc.entries s l k) ≤
      pctOf ((mergeSubjects acc remote).entries s l k) := by
  induction remote generalizing acc with
  | nil => exact le_refl _
  | cons p t ih =>
    rw [mergeSubjects_cons]
    by_cases hm : p.1 = "_meta" ∨ p.1 = "success"
    · rw [if_pos hm]; exact ih acc
    · rw [if_neg hm]
      exact le_trans (mergeLevels_pct_le p.2 acc p.1 s l k) (ih _)

/-- The whole merge never decreases the stored percentage at any key. -/
theorem mergeBackendData_pct_le (remote : RemoteData) (st : LocalStore)
    (s l k : String) :
    pctOf (st.entries s l k) ≤
      pctOf ((mergeBackendData remote st).entries s l k) :=
  mergeSubjects_pct_le remote ⟨st.entries, st.lastAttempted⟩ s l k

/-- The merge decision for one key, written as the spec states it: keep
the remote entry exactly when there is no local entry, the remote
percentage is strictly greater, or the percentages are equal and the
remote timestamp is strictly newer. -/
def mergeCond (le : Option Entry) (re : Entry) : Option Entry :=
  if le = none ∨ pctOf le < re.percentage ∨
      (re.percentage = pctOf le ∧ tsOf le < re.timestamp) then
    some (mergedEntry re)
  else le

/-- A merge step at its own key rewrites that key according to mergeCond. -/
theorem mergeSetStep_self (acc : MergeAcc) (subject level setKey : String)
    (re : Entry) :
    (mergeSetStep acc subject level setKey re).entries subject level setKey =
      mergeCond (acc.entries subject level setKey) re := by
  simp only [mergeSetStep, mergeCond]
  by_cases h :
      acc.entries subject level setKey = none ∨
        pctOf (acc.entries subject level setKey) < re.percentage ∨
        (re.percentage = pctOf (acc.entries subject level setKey) ∧
          tsOf (acc.entries subject level setKey) < re.timestamp)
  · simp [h]
  · simp only [if_neg h]

/-- The set fold leaves a key alone when no listed set pair targets it. -/
theorem mergeSets_entry_frame (sets : List (String × Entry)) (acc : MergeAcc)
    (subject level s l k : String)
    (h : ∀ p ∈ sets, ¬(s = subject ∧ l = level ∧ k = p.1)) :
    (mergeSets acc subject level sets).entries s l k = acc.entries s l k := by
  induction sets generalizing acc with
  | nil => rfl
  | cons p t ih =>
    rw [mergeSets_cons]
    by_cases hm : p.1 = "_meta"
    · rw [if_pos hm]
      exact ih acc fun q hq => h q (List.mem_cons_of_mem p hq)
    · rw [if_neg hm]
      exact (ih _ fun q hq => h q (List.mem_cons_of_mem p hq)).trans
        (mergeSetStep_frame acc subject level p.1 p.2 s l k
          (h p (List.mem_cons_self p t)))

/-- The level fold leaves a key alone when no listed pair targets it. -/
theorem mergeLevels_entry_frame (levels : List (String × List (String × Entry)))
    (acc : MergeAcc) (subject s l k : String)
    (h : ∀ p ∈ levels, ∀ q ∈ p.2, ¬(s = subject ∧ l = p.1 ∧ k = q.1)) :
    (mergeLevels acc subject levels).entries s l k = acc.entries s l k := by
  induction levels generalizing acc with
  | nil => rfl
  | cons p t ih =>
    rw [mergeLevels_cons]
    by_cases hm : p.1 = "_meta"
    · rw [if_pos hm]
      exact ih acc fun q hq => h q (List.mem_cons_of_mem p hq)
    · rw [if_neg hm]
      exact (ih _ fun q hq => h q (List.mem_cons_of_mem p hq)).trans
        (mergeSets_entry_frame p.2 acc subject p.1 s l k
          (h p (List.mem_cons_self p t)))

/-- The subject fold leaves a key alone when no listed pair targets it. -/
theorem mergeSubjects_entry_frame (remote : RemoteData) (acc : MergeAcc)
    (s l k : String)
    (h : ∀ p ∈ remote, ∀ q ∈ p.2, ∀ w ∈ q.2, ¬(s = p.1 ∧ l = q.1 ∧ k = w.1)) :
    (mergeSubjects acc remote).entries s l k = acc.entries s l k := by
  induction remote generalizing acc with
  | nil => rfl
  | cons p t ih =>
    rw [mergeSubjects_cons]
    by_cases hm : p.1 = "_meta" ∨ p.1 = "success"
    · rw [if_pos hm]
      exact ih acc fun q hq => h q (List.mem_cons_of_mem p hq)
    · rw [if_neg hm]
      exact (ih _ fun q hq => h q (List.mem_cons_of_mem p hq)).trans
        (mergeLevels_entry_frame p.2 acc p.1 s l k
          (h p (List.mem_cons_self p t)))

/-- Set-level lookup: when the set keys of a level are distinct, the fold
over them rewrites the listed key according to mergeCond. -/
theorem mergeSets_lookup (sets : List (String × Entry)) (acc : MergeAcc)
    (subject level setKey : String) (re : Entry)
    (hnd : (sets.map Prod.fst).Nodup) (hmem : (setKey, re) ∈ sets)
    (hk1 : setKey ≠ "_meta") :
    (mergeSets acc subject level sets).entries subject level setKey =
      mergeCond (acc.entries subject level setKey) re := by
  induction sets generalizing acc with
  | nil => cases hmem
  | cons p t ih =>
    obtain ⟨pk, pe⟩ := p
    simp only [List.map_cons, List.nodup_cons] at hnd
    rcases List.mem_cons.mp hmem with heq | hmemt
    · injection heq with h1 h2
      subst h1
      subst h2
      rw [mergeSets_cons]
      dsimp only
      rw [if_neg hk1]
      have hframe : ∀ q ∈ t,
          ¬(subject = subject ∧ level = level ∧ setKey = q.1) := by
        intro q hq hc
        have hq1 := List.mem_map_of_mem Prod.fst hq
        rw [← hc.2.2] at hq1
        exact hnd.1 hq1
      rw [mergeSets_entry_frame t _ subject level subject level setKey hframe]
      exact mergeSetStep_self acc subject level setKey re
    · have hne : pk ≠ setKey := by
        intro hc
        have hq1 := List.mem_map_of_mem Prod.fst hmemt
        rw [← hc] at hq1
        exact hnd.1 hq1
      rw [mergeSets_cons]
      dsimp only
      by_cases hm : pk = "_meta"
      · rw [if_pos hm]
        exact ih _ hnd.2 hmemt
      · rw [if_neg hm]
        rw [ih _ hnd.2 hmemt]
        rw [mergeSetStep_frame acc subject level pk pe subject level setKey
          (fun hc => hne hc.2.2.symm)]

/-- Level-level lookup: with distinct level keys and distinct set keys,
the fold over the levels of a subject rewrites the listed key according
to mergeCond. -/
theorem mergeLevels_lookup (levels : List (String × List (String × Entry)))
    (acc : MergeAcc) (subject level setKey : String)
    (sets : List (String × Entry)) (re : Entry)
    (hndl : (levels.map Prod.fst).Nodup)
    (hndk : ∀ p ∈ levels, (p.2.map Prod.fst).Nodup)
    (hmeml : (level, sets) ∈ levels) (hl1 : level ≠ "_meta")
    (hmemk : (setKey, re) ∈ sets) (hk1 : setKey ≠ "_meta") :
    (mergeLevels acc subject levels).entries subject level setKey =
      mergeCond (acc.entries subject level setKey) re := by
  induction levels generalizing acc with
  | nil => cases hmeml
  | cons p t ih =>
    obtain ⟨pk, pe⟩ := p
    simp only [List.map_cons, List.nodup_cons] at hndl
    rcases List.mem_cons.mp hmeml with heq | hmemt
    · injection heq with h1 h2
      subst h1
      subst h2
      rw [mergeLevels_cons]
      dsimp only
      rw [if_neg hl1]
      have hframe : ∀ q ∈ t, ∀ w ∈ q.2,
          ¬(subject = subject ∧ level = q.1 ∧ setKey = w.1) := by
        intro q hq w _ hc
        have hq1 := List.mem_map_of_mem Prod.fst hq
        rw [← hc.2.1] at hq1
        exact hndl.1 hq1
      rw [mergeLevels_entry_frame t _ subject subject level setKey hframe]
      exact mergeSets_lookup sets acc subject level setKey re
        (hndk (level, sets) (List.mem_cons_self _ t)) hmemk hk1
    · have hne : pk ≠ level := by
        intro hc
        have hq1 := List.mem_map_of_mem Prod.fst hmemt
        rw [← hc] at hq1
        exact hndl.1 hq1
      rw [mergeLevels_cons]
      dsimp only
      have hndk' : ∀ q ∈ t, (q.2.map Prod.fst).Nodup :=
        fun q hq => hndk q (List.mem_cons_of_mem _ hq)
      by_cases hm : pk = "_meta"
      · rw [if_pos hm]
        exact ih _ hndl.2 hndk' hmemt
      · rw [if_neg hm]
        rw [ih _ hndl.2 hndk' hmemt]
        rw [mergeSets_entry_frame pe acc subject pk subject level setKey
          (fun q _ hc => hne hc.2.1.symm)]

/-- Subject-level lookup for the whole remote fold. -/
theorem mergeSubjects_lookup (remote : RemoteData) (acc : MergeAcc)
    (subject level setKey : String)
    (levels : List (String × List (String × Entry)))
    (sets : List (String × Entry)) (re : Entry)
    (hnds : (remote.map Prod.fst).Nodup)
    (hndl : ∀ p ∈ remote, (p.2.map Prod.fst).Nodup)
    (hndk : ∀ p ∈ remote, ∀ q ∈ p.2, (q.2.map Prod.fst).Nodup)
    (hmems : (subject, levels) ∈ remote)
    (hs1 : subject ≠ "_meta") (hs2 : subject ≠ "success")
    (hmeml : (level, sets) ∈ levels) (hl1 : level ≠ "_meta")
    (hmemk : (setKey, re) ∈ sets) (hk1 : setKey ≠ "_meta") :
    (mergeSubjects acc remote).entries subject level setKey =
      mergeCond (acc.entries subject level setKey) re := by
  induction remote generalizing acc with
  | nil => cases hmems
  | cons p t ih =>
    obtain ⟨pk, pe⟩ := p
    simp only [List.map_cons, List.nodup_cons] at hnds
    rcases List.mem_cons.mp hmems with heq | hmemt
    · injection heq with h1 h2
      subst h1
      subst h2
      rw [mergeSubjects_cons]
      dsimp only
      rw [if_neg (not_or.mpr ⟨hs1, hs2⟩)]
      have hframe : ∀ q ∈ t, ∀ w ∈ q.2, ∀ x ∈ w.2,
          ¬(subject = q.1 ∧ level = w.1 ∧ setKey = x.1) := by
        intro q hq w _ x _ hc
        have hq1 := List.mem_map_of_mem Prod.fst hq
        rw [← hc.1] at hq1
        exact hnds.1 hq1
      rw [mergeSubjects_entry_frame t _ subject level setKey hframe]
      exact mergeLevels_lookup levels acc subject level setKey sets re
        (hndl (subject, levels) (List.mem_cons_self _ t))
        (fun q hq => hndk (subject, levels) (List.mem_cons_self _ t) q hq)
        hmeml hl1 hmemk hk1
    · have hne : pk ≠ subject := by
        intro hc
        have hq1 := List.mem_map_of_mem Prod.fst hmemt
        rw [← hc] at hq1
        exact hnds.1 hq1
      rw [mergeSubjects_cons]
      dsimp only
      have hndl' : ∀ q ∈ t, (q.2.map Prod.fst).Nodup :=
        fun q hq => hndl q (List.mem_cons_of_mem _ hq)
      have hndk' : ∀ q ∈ t, ∀ w ∈ q.2, (w.2.map Prod.fst).Nodup :=
        fun q hq => hndk q (List.mem_cons_of_mem _ hq)
      by_cases hm : pk = "_meta" ∨ pk = "success"
      · rw [if_pos hm]
        exact ih _ hnds.2 hndl' hndk' hmemt
      · rw [if_neg hm]
        rw [ih _ hnds.2 hndl' hndk' hmemt]
        rw [mergeLevels_entry_frame pe acc pk subject level setKey
          (fun q _ w _ hc => hne hc.1.symm)]

/-!
The Apps Script backend _getStudentProgress: scan the RESULTS sheet rows
of one student and keep, for each subject/level/set, the entry with the
highest percentage (later rows win ties).
-/

/-- One row of the RESULTS sheet. -/
structure ResultRow where
  studentId : String
  studentName : String
  subject : String
  level : String
  set : String
  score : Nat
  total : Nat
  percentage : Nat
  timeTaken : Nat
  date : String
  timestamp : Nat
deriving DecidableEq, Repr

/-- The progress entry built from a RESULTS row. -/
def resultEntry (r : ResultRow) : Entry :=
  { score := r.score, total := r.total, percentage := r.percentage,
    date := r.date, timestamp := r.timestamp, timeTaken := r.timeTaken }

/-- The body of the _getStudentProgress loop for one row: rows of other
students are skipped; otherwise the entry is replaced when there is none
yet or the row percentage is at least the stored one. -/
def progressStep (sid : String) (prog : EntriesMap) (r : ResultRow) : EntriesMap :=
  if r.studentId = sid then
    let existing := prog r.subject r.level r.set
    if existing = none ∨ pctOf existing ≤ r.percentage then
      fun s l k =>
        if s = r.subject ∧ l = r.level ∧ k = r.set then some (resultEntry r)
        else prog s l k
    else prog
  else prog

/-- The Apps Script backend _getStudentProgress over the RESULTS rows. -/
def getStudentProgress (sid : String) (rows : List ResultRow) : EntriesMap :=
  rows.foldl (progressStep sid) (fun _ _ _ => none)

/-- One progress step never decreases the stored percentage at any key. -/
theorem progressStep_pct_le (sid : String) (prog : EntriesMap) (r : ResultRow)
    (s l k : String) :
    pctOf (prog s l k) ≤ pctOf (progressStep sid prog r s l k) := by
  simp only [progressStep]
  split
  · split
    · rename_i hc
      by_cases hk : s = r.subject ∧ l = r.level ∧ k = r.set
      · obtain ⟨rfl, rfl, rfl⟩ := hk
        simp only [if_pos (⟨rfl, rfl, rfl⟩ :
          r.subject = r.subject ∧ r.level = r.level ∧ r.set = r.set)]
        rcases hc with h | h
        · simp [h, pctOf, resultEntry]
        · simpa [pctOf, resultEntry] using h
      · simp only [if_neg hk]
        exact le_refl _
    · exact le_refl _
  · exact le_refl _

/-- After a matching row is processed, the stored percentage at its key is
at least the row percentage. -/
theorem progressStep_pct_ge (sid : String) (prog : EntriesMap) (r : ResultRow)
    (hsid : r.studentId = sid) :
    r.percentage ≤ pctOf (progressStep sid prog r r.subject r.level r.set) := by
  simp only [progressStep, if_pos hsid]
  split
  · simp only [if_pos (⟨rfl, rfl, rfl⟩ :
      r.subject = r.subject ∧ r.level = r.level ∧ r.set = r.set)]
    simp [pctOf, resultEntry]
  · rename_i hc
    push_neg at hc
    exact le_of_lt hc.2

/-- Every entry produced by a progress step is either inherited from the
accumulator or copied from the processed row at its own key. -/
theorem progressStep_provenance (sid : String) (prog : EntriesMap)
    (r : ResultRow) (s l k : String) :
    progressStep sid prog r s l k = prog s l k ∨
      (r.studentId = sid ∧ s = r.subject ∧ l = r.level ∧ k = r.set ∧
        progressStep sid prog r s l k = some (resultEntry r)) := by
  simp only [progressStep]
  split
  · rename_i hsid
    split
    · by_cases hk : s = r.subject ∧ l = r.level ∧ k = r.set
      · exact Or.inr ⟨hsid, hk.1, hk.2.1, hk.2.2, if_pos hk⟩
      · exact Or.inl (if_neg hk)
    · exact Or.inl rfl
  · exact Or.inl rfl

/-- Folding further rows never decreases the stored percentage. -/
theorem progressFold_pct_le (sid : String) (rows : List ResultRow)
    (prog : EntriesMap) (s l k : String) :
    pctOf (prog s l k) ≤ pctOf ((rows.foldl (progressStep sid) prog) s l k) := by
  induction rows generalizing prog with
  | nil => exact le_refl _
  | cons r t ih =>
    simp only [List.foldl_cons]
    exact le_trans (progressStep_pct_le sid prog r s l k) (ih _)

/-- The final table dominates the percentage of every matching row. -/
theorem getStudentProgress_pct_ge (sid : String) (rows : List ResultRow)
    (r : ResultRow) (hmem : r ∈ rows) (hsid : r.studentId = sid) :
    r.percentage ≤ pctOf (getStudentProgress sid rows r.subject r.level r.set) := by
  obtain ⟨t1, t2, rfl⟩ := List.append_of_mem hmem
  show r.percentage ≤ pctOf ((t1 ++ r :: t2).foldl (progressStep sid) _ _ _ _)
  rw [List.foldl_append, List.foldl_cons]
  exact le_trans (progressStep_pct_ge sid _ r hsid)
    (progressFold_pct_le sid t2 _ r.subject r.level r.set)

/-- Every entry of the final table was copied from some matching row with
the same subject, level and set. -/
theorem getStudentProgress_provenance (sid : String) (rows : List ResultRow)
    (s l k : String) (e : Entry)
    (h : getStudentProgress sid rows s l k = some e) :
    ∃ r ∈ rows, r.studentId = sid ∧ s = r.subject ∧ l = r.level ∧ k = r.set ∧
      e = resultEntry r := by
  have main : ∀ (t : List ResultRow) (prog : EntriesMap),
      (t.foldl (progressStep sid) prog) s l k = some e →
      prog s l k = some e ∨
        ∃ r ∈ t, r.studentId = sid ∧ s = r.subject ∧ l = r.level ∧ k = r.set ∧
          e = resultEntry r := by
    intro t
    induction t with
    | nil => exact fun prog h0 => Or.inl h0
    | cons r t2 ih =>
      intro prog h0
      rw [List.foldl_cons] at h0
      rcases ih _ h0 with hstep | ⟨w, hw, hrest⟩
      · rcases progressStep_provenance sid prog r s l k with heq | hfound
        · exact Or.inl (heq ▸ hstep)
        · refine Or.inr ⟨r, List.mem_cons_self r t2, hfound.1, hfound.2.1,
            hfound.2.2.1, hfound.2.2.2.1, ?_⟩
          have := hfound.2.2.2.2
          rw [hstep] at this
          exact Option.some.injEq _ _ ▸ this
      · exact Or.inr ⟨w, List.mem_cons_of_mem r hw, hrest⟩
  rcases main rows (fun _ _ _ => none) h with h0 | hfound
  · cases h0
  · exact hfound

/-- C1: best-score merge.  Merging never decreases the stored percentage
of any subject/level/set; for a remote object with distinct keys, the
stored entry of a listed key is replaced exactly when there is no local
entry, the remote percentage is strictly greater, or the percentages are
equal and the remote timestamp is strictly newer; and the backend
_getStudentProgress table holds one entry per key whose percentage
dominates every matching RESULTS row and whose data is copied from a
matching row. -/
theorem mergeBackendData_best_score :
    (∀ (remote : RemoteData) (st : LocalStore) (s l k : String),
      pctOf (st.entries s l k) ≤
        pctOf ((mergeBackendData remote st).entries s l k)) ∧
    (∀ (remote : RemoteData) (st : LocalStore)
       (subject level setKey : String)
       (levels : List (String × List (String × Entry)))
       (sets : List (String × Entry)) (re : Entry),
      (remote.map Prod.fst).Nodup →
      (∀ p ∈ remote, (p.2.map Prod.fst).Nodup) →
      (∀ p ∈ remote, ∀ q ∈ p.2, (q.2.map Prod.fst).Nodup) →
      (subject, levels) ∈ remote → subject ≠ "_meta" → subject ≠ "success" →
      (level, sets) ∈ levels → level ≠ "_meta" →
      (setKey, re) ∈ sets → setKey ≠ "_meta" →
      (mergeBackendData remote st).entries subject level setKey =
        if st.entries subject level setKey = none ∨
            pctOf (st.entries subject level setKey) < re.percentage ∨
            (re.percentage = pctOf (st.entries subject level setKey) ∧
              tsOf (st.entries subject level setKey) < re.timestamp) then
          some (mergedEntry re)
        else st.entries subject level setKey) ∧
    (∀ (sid : String) (rows : List ResultRow) (r : ResultRow),
      r ∈ rows → r.studentId = sid →
      r.percentage ≤
        pctOf (getStudentProgress sid rows r.subject r.level r.set)) ∧
    (∀ (sid : String) (rows : List ResultRow) (s l k : String) (e : Entry),
      getStudentProgress sid rows s l k = some e →
      ∃ r ∈ rows, r.studentId = sid ∧ s = r.subject ∧ l = r.level ∧
        k = r.set ∧ e = resultEntry r) := by
  refine ⟨mergeBackendData_pct_le, ?_, getStudentProgress_pct_ge,
    getStudentProgress_provenance⟩
  intro remote st subject level setKey levels sets re hnds hndl hndk hmems hs1
    hs2 hmeml hl1 hmemk hk1
  exact mergeSubjects_lookup remote ⟨st.entries, st.lastAttempted⟩ subject level
    setKey levels sets re hnds hndl hndk hmems hs1 hs2 hmeml hl1 hmemk hk1

/-- Witness for C1 at concrete inputs: a remote entry with a strictly
higher percentage replaces the local one, and the backend table
dominates a concrete row. -/
theorem mergeBackendData_best_score_witness :
    (mergeBackendData
        [("tenses", [("high", [("1",
            (⟨8, 10, 80, "d1", 7, 3⟩ : Entry))])])]
        ⟨fun s l k =>
            if s = "tenses" ∧ l = "high" ∧ k = "1" then
              some ⟨5, 10, 50, "d0", 2, 9⟩
            else none, none⟩).entries "tenses" "high" "1" =
      some (mergedEntry ⟨8, 10, 80, "d1", 7, 3⟩) ∧
    (6 : Nat) ≤ pctOf (getStudentProgress "S1"
        [⟨"S1", "n", "tenses", "high", "1", 3, 50, 6, 1, "d", 4⟩]
        "tenses" "high" "1") := by
  constructor
  · have h := mergeBackendData_best_score.2.1
      [("tenses", [("high", [("1", (⟨8, 10, 80, "d1", 7, 3⟩ : Entry))])])]
      ⟨fun s l k =>
          if s = "tenses" ∧ l = "high" ∧ k = "1" then
            some ⟨5, 10, 50, "d0", 2, 9⟩
          else none, none⟩
      "tenses" "high" "1"
      [("high", [("1", (⟨8, 10, 80, "d1", 7, 3⟩ : Entry))])]
      [("1", (⟨8, 10, 80, "d1", 7, 3⟩ : Entry))]
      ⟨8, 10, 80, "d1", 7, 3⟩
      (by decide) (by decide) (by decide) (by decide) (by decide) (by decide)
      (by decide) (by decide) (by decide) (by decide)
    rw [h]
    decide
  · exact mergeBackendData_best_score.2.2.1 "S1"
      [⟨"S1", "n", "tenses", "high", "1", 3, 50, 6, 1, "d", 4⟩]
      ⟨"S1", "n", "tenses", "high", "1", 3, 50, 6, 1, "d", 4⟩
      (by decide) (by decide)

/-!
Password hashing of the Apps Script backend (_hashPassword): the
hex-encoded SHA-256 digest of salt, a colon, and the password.  The
digest itself is platform code (Utilities.computeDigest), so it is passed
as a function returning the digest bytes; the hex encoding of the source
is embedded exactly.
-/

/-- Hex encoding of one digest byte, as the source writes it: prepend a
zero character to the base-16 representation of byte AND 0xFF and keep
the last two characters. -/
def hexByte (b : Nat) : List Char :=
  let s := '0' :: Nat.toDigits 16 (b % 256)
  s.drop (s.length - 2)

/-- Hex encoding of a digest: the concatenation of the per-byte codes. -/
def hexEncode (bytes : List Nat) : String :=
  String.mk (bytes.map hexByte).join

/-- The backend _hashPassword: hex-encoded digest of salt, colon,
password. -/
def hashPassword (digest : String → List Nat) (password salt : String) :
    String :=
  hexEncode (digest (salt ++ ":" ++ password))

set_option maxRecDepth 4000 in
/-- Explicit form of hexByte on a byte value. -/
theorem hexByte_eq_digits (b : Nat) (hb : b < 256) :
    hexByte b = [Nat.digitChar (b / 16), Nat.digitChar (b % 16)] := by
  revert hb
  revert b
  decide

/-- hexByte always produces two characters on a byte value. -/
theorem hexByte_length (b : Nat) (hb : b < 256) : (hexByte b).length = 2 := by
  rw [hexByte_eq_digits b hb]
  rfl

/-- hexByte is injective on byte values. -/
theorem hexByte_inj (a b : Nat) (ha : a < 256) (hb : b < 256)
    (h : hexByte a = hexByte b) : a = b := by
  rw [hexByte_eq_digits a ha, hexByte_eq_digits b hb] at h
  have hdc : ∀ x < 16, ∀ y < 16, Nat.digitChar x = Nat.digitChar y → x = y := by
    decide
  have h1 : a / 16 = b / 16 := by
    refine hdc (a / 16) (by omega) (b / 16) (by omega) ?_
    exact (List.cons.injEq _ _ _ _ ▸ h).1
  have h2 : a % 16 = b % 16 := by
    refine hdc (a % 16) (by omega) (b % 16) (by omega) ?_
    have := (List.cons.injEq _ _ _ _ ▸ h).2
    exact (List.cons.injEq _ _ _ _ ▸ this).1
  omega

/-- The per-byte hex blocks concatenate injectively on byte values. -/
theorem hexBlocks_inj (l1 l2 : List Nat)
    (h1 : ∀ b ∈ l1, b < 256) (h2 : ∀ b ∈ l2, b < 256)
    (h : (l1.map hexByte).join = (l2.map hexByte).join) : l1 = l2 := by
  induction l1 generalizing l2 with
  | nil =>
    cases l2 with
    | nil => rfl
    | cons b t =>
      exfalso
      simp only [List.map_nil, List.join_nil, List.map_cons, List.join_cons] at h
      have hlen := congrArg List.length h
      rw [List.length_append,
        hexByte_length b (h2 b (List.mem_cons_self b t))] at hlen
      simp only [List.length_nil] at hlen
      omega
  | cons a t1 ih =>
    cases l2 with
    | nil =>
      exfalso
      simp only [List.map_nil, List.join_nil, List.map_cons, List.join_cons] at h
      have hlen := congrArg List.length h
      rw [List.length_append,
        hexByte_length a (h1 a (List.mem_cons_self a t1))] at hlen
      simp only [List.length_nil] at hlen
      omega
    | cons b t2 =>
      simp only [List.map_cons, List.join_cons] at h
      have hlena := hexByte_length a (h1 a (List.mem_cons_self a t1))
      have hlenb := hexByte_length b (h2 b (List.mem_cons_self b t2))
      obtain ⟨hhead, htail⟩ :=
        List.append_inj h (by rw [hlena, hlenb])
      have hab : a = b :=
        hexByte_inj a b (h1 a (List.mem_cons_self a t1))
          (h2 b (List.mem_cons_self b t2)) hhead
      rw [hab, ih t2 (fun x hx => h1 x (List.mem_cons_of_mem a hx))
        (fun x hx => h2 x (List.mem_cons_of_mem b hx)) htail]

/-- hexEncode is injective on byte lists. -/
theorem hexEncode_inj (l1 l2 : List Nat)
    (h1 : ∀ b ∈ l1, b < 256) (h2 : ∀ b ∈ l2, b < 256)
    (h : hexEncode l1 = hexEncode l2) : l1 = l2 := by
  apply hexBlocks_inj l1 l2 h1 h2
  have := congrArg String.data h
  simpa [hexEncode] using this

/-!
Apps Script backend handlers over the REGISTRATION sheet (the current
backend version): _handleLogin, _handleCheckSession, _handleRegister.
Fresh UUIDs (session tokens, student ids, salts), the wall clock and the
rate-limit counter of CacheService are external inputs and are passed as
parameters.
-/

/-- JavaScript String.prototype.toLowerCase over the character list
(ASCII case mapping, as Char.toLower provides). -/
def jsToLower (s : String) : String :=
  String.mk (s.data.map Char.toLower)

/-- JavaScript String.prototype.trim over the character list: drop
leading and trailing whitespace. -/
def jsTrim (s : String) : String :=
  String.mk
    (((s.data.dropWhile Char.isWhitespace).reverse.dropWhile
        Char.isWhitespace).reverse)

/-- One row of the REGISTRATION sheet. -/
structure RegRow where
  studentId : String
  name : String
  email : String
  passwordHash : String
  salt : String
  status : String
  role : String
  createdAt : String
  lastLogin : String
  sessionToken : String
deriving DecidableEq, Repr

/-- TextFinder style first-match lookup: the first row satisfying the
predicate together with its position. -/
def findRowBy (p : RegRow → Bool) : List RegRow → Option (Nat × RegRow)
  | [] => none
  | r :: rs =>
    if p r then some (0, r)
    else (findRowBy p rs).map (fun x => (x.1 + 1, x.2))

/-- _findRowByColumn on the STUDENT_ID column: trim the search value,
refuse the empty string, and match the trimmed cell exactly
(case-sensitive). -/
def findRowById (rows : List RegRow) (sid : String) : Option (Nat × RegRow) :=
  if jsTrim sid = "" then none
  else findRowBy (fun r => jsTrim r.studentId = jsTrim sid) rows

/-- _findRowByColumn on the EMAIL column: trim the search value, refuse
the empty string, and match the trimmed cell case-insensitively. -/
def findRowByEmail (rows : List RegRow) (email : String) :
    Option (Nat × RegRow) :=
  if jsTrim email = "" then none
  else findRowBy (fun r => jsToLower (jsTrim r.email) = jsToLower (jsTrim email)) rows

/-- Response of the checkSession action. -/
structure CheckResp where
  success : Bool
  reason : Option String
deriving DecidableEq, Repr

/-- _handleCheckSession: server-authoritative session check.  Missing
parameters fail; an unknown student fails; a non-approved status fails;
otherwise the call succeeds exactly when the presented token equals the
stored activeSessionToken. -/
def handleCheckSession (rows : List RegRow) (studentId tok : String) :
    CheckResp :=
  if studentId = "" ∨ tok = "" then ⟨false, some "missing_params"⟩
  else
    match findRowById rows studentId with
    | none => ⟨false, some "student_not_found"⟩
    | some (_, row) =>
      if jsToLower (jsTrim row.status) ≠ "approved" then
        ⟨false, some "account_not_approved"⟩
      else if row.sessionToken = tok then ⟨true, none⟩
      else ⟨false, some "session_invalid"⟩

/-- Response of the login action. -/
structure LoginResp where
  success : Bool
  status : Option String
  error : Option String
  code : Option String
  studentId : Option String
  studentName : Option String
  email : Option String
  activeSessionToken : Option String
deriving DecidableEq, Repr

/-- A login failure response without a status field. -/
def loginFail (err code : String) : LoginResp :=
  ⟨false, none, some err, some code, none, none, none, none⟩

/-- A login failure response carrying an account status. -/
def loginFailStatus (stat err code : String) : LoginResp :=
  ⟨false, some stat, some err, some code, none, none, none, none⟩

/-- _handleLogin of the current backend.  The digest function, the
current failed-attempt count from CacheService, the freshly generated
session token and the wall clock ISO string are external inputs.
Returns the updated REGISTRATION sheet and the response. -/
def handleLogin (digest : String → List Nat) (rows : List RegRow)
    (emailIn passwordIn : String) (attempts : Nat)
    (newToken nowIso : String) : List RegRow × LoginResp :=
  if emailIn = "" ∨ passwordIn = "" then
    (rows, loginFail "Email and password are required." "MISSING_FIELDS")
  else
    let email := jsToLower (jsTrim emailIn)
    if 5 ≤ attempts then
      (rows, loginFail "Too many login attempts. Please wait 5 minutes."
        "RATE_LIMITED")
    else
      match findRowByEmail rows email with
      | none =>
        (rows, loginFail "Invalid email or password." "INVALID_CREDENTIALS")
      | some (i, row) =>
        let status := jsToLower (jsTrim row.status)
        if status = "pending" then
          (rows, loginFailStatus "pending"
            "Account pending approval. Please contact your teacher."
            "ACCOUNT_PENDING")
        else if status = "suspended" then
          (rows, loginFailStatus "suspended"
            "Account suspended. Contact administrator." "ACCOUNT_SUSPENDED")
        else if status = "rejected" then
          (rows, loginFailStatus "rejected"
            "Account rejected. Contact administrator." "ACCOUNT_REJECTED")
        else if status = "blocked" then
          (rows, loginFailStatus "blocked"
            "Account blocked. Contact administrator." "ACCOUNT_BLOCKED")
        else if status ≠ "approved" then
          (rows, loginFail "Account not approved." "ACCOUNT_NOT_APPROVED")
        else
          let inputHash := hashPassword digest passwordIn row.salt
          if inputHash ≠ row.passwordHash then
            (rows, loginFail "Invalid email or password." "INVALID_CREDENTIALS")
          else
            (rows.set i { row with lastLogin := nowIso, sessionToken := newToken },
             ⟨true, none, none, none, some row.studentId, some row.name,
              some email, some newToken⟩)

/-- Response of the register action. -/
structure RegisterResp where
  success : Bool
  error : Option String
  code : Option String
  message : Option String
deriving DecidableEq, Repr

/-- _handleRegister of the current backend.  The freshly generated
student id and salt and the wall clock ISO string are external inputs.
Returns the updated REGISTRATION sheet and the response. -/
def handleRegister (digest : String → List Nat) (rows : List RegRow)
    (nameIn emailIn passwordIn : String) (newId salt nowIso : String) :
    List RegRow × RegisterResp :=
  if nameIn = "" ∨ emailIn = "" ∨ passwordIn = "" then
    (rows, ⟨false, some "Name, email, and password are required.",
            some "MISSING_FIELDS", none⟩)
  else
    let email := jsToLower (jsTrim emailIn)
    let name := jsTrim nameIn
    if passwordIn.length < 6 then
      (rows, ⟨false, some "Password must be at least 6 characters.",
              some "WEAK_PASSWORD", none⟩)
    else
      match findRowByEmail rows email with
      | some _ =>
        (rows, ⟨false, some "This email is already registered.",
                some "EMAIL_EXISTS", none⟩)
      | none =>
        let passwordHash := hashPassword digest passwordIn salt
        (rows ++ [{ studentId := newId, name := name, email := email,
                    passwordHash := passwordHash, salt := salt,
                    status := "pending", role := "student",
                    createdAt := nowIso, lastLogin := "",
                    sessionToken := "" }],
         ⟨true, none, none,
          some "Registration submitted. Await teacher approval."⟩)

/-- findRowBy finds a row satisfying the predicate at the reported
position. -/
theorem findRowBy_spec (p : RegRow → Bool) (rows : List RegRow) (i : Nat)
    (row : RegRow) (h : findRowBy p rows = some (i, row)) :
    rows.get? i = some row ∧ p row = true := by
  induction rows generalizing i with
  | nil => cases h
  | cons r rs ih =>
    simp only [findRowBy] at h
    by_cases hp : p r
    · rw [if_pos hp] at h
      obtain ⟨h1, h2⟩ := Prod.mk.injEq _ _ _ _ ▸ Option.some.injEq _ _ ▸ h
      subst h1
      subst h2
      exact ⟨rfl, hp⟩
    · rw [if_neg hp] at h
      cases hfind : findRowBy p rs with
      | none => rw [hfind] at h; cases h
      | some x =>
        rw [hfind] at h
        obtain ⟨x1, x2⟩ := x
        simp only [Option.map_some'] at h
        obtain ⟨h1, h2⟩ := Prod.mk.injEq _ _ _ _ ▸ Option.some.injEq _ _ ▸ h
        subst h2
        obtain ⟨hget, hp2⟩ := ih x1 hfind
        constructor
        · rw [← h1]
          simpa using hget
        · exact hp2

/-- Replacing the found row with one that still satisfies the predicate
keeps findRowBy pointing at the same position with the new row. -/
theorem findRowBy_set (p : RegRow → Bool) (rows : List RegRow) (i : Nat)
    (row row' : RegRow) (h : findRowBy p rows = some (i, row))
    (hp : p row' = true) :
    findRowBy p (rows.set i row') = some (i, row') := by
  induction rows generalizing i with
  | nil => cases h
  | cons r rs ih =>
    simp only [findRowBy] at h
    by_cases hpr : p r
    · rw [if_pos hpr] at h
      obtain ⟨h1, h2⟩ := Prod.mk.injEq _ _ _ _ ▸ Option.some.injEq _ _ ▸ h
      subst h1
      simp only [List.set_cons_zero, findRowBy, if_pos hp]
    · rw [if_neg hpr] at h
      cases hfind : findRowBy p rs with
      | none => rw [hfind] at h; cases h
      | some x =>
        rw [hfind] at h
        obtain ⟨x1, x2⟩ := x
        simp only [Option.map_some'] at h
        injection h with h3
        injection h3 with h4 h5
        subst h5
        subst h4
        simp only [List.set_cons_succ, findRowBy, if_neg hpr, ih x1 hfind,
          Option.map_some']

/-- A successful checkSession exhibits a found row whose stored token is
the presented one. -/
theorem handleCheckSession_success_token (rows : List RegRow)
    (sid tok : String)
    (h : (handleCheckSession rows sid tok).success = true) :
    ∃ i row, findRowById rows sid = some (i, row) ∧
      jsToLower (jsTrim row.status) = "approved" ∧ row.sessionToken = tok := by
  by_cases h0 : sid = "" ∨ tok = ""
  · rw [handleCheckSession, if_pos h0] at h
    cases h
  · rw [handleCheckSession, if_neg h0] at h
    cases hfind : findRowById rows sid with
    | none => rw [hfind] at h; cases h
    | some x =>
      obtain ⟨i, row⟩ := x
      rw [hfind] at h
      dsimp only at h
      by_cases hst : jsToLower (jsTrim row.status) ≠ "approved"
      · rw [if_pos hst] at h
        cases h
      · rw [if_neg hst] at h
        push_neg at hst
        by_cases htok : row.sessionToken = tok
        · exact ⟨i, row, rfl, hst, htok⟩
        · rw [if_neg htok] at h
          cases h

/-- A successful login exhibits the row found by email; the sheet is
updated by overwriting exactly that row with the fresh session token, and
the response carries the fresh token. -/
theorem handleLogin_success_overwrites (digest : String → List Nat)
    (rows : List RegRow) (emailIn passwordIn : String) (attempts : Nat)
    (newToken nowIso : String)
    (h : (handleLogin digest rows emailIn passwordIn attempts newToken
            nowIso).2.success = true) :
    ∃ i row,
      findRowByEmail rows (jsToLower (jsTrim emailIn)) = some (i, row) ∧
      handleLogin digest rows emailIn passwordIn attempts newToken nowIso =
        (rows.set i { row with lastLogin := nowIso, sessionToken := newToken },
         ⟨true, none, none, none, some row.studentId, some row.name,
          some (jsToLower (jsTrim emailIn)), some newToken⟩) := by
  by_cases c1 : emailIn = "" ∨ passwordIn = ""
  · rw [handleLogin, if_pos c1] at h
    cases h
  · by_cases c2 : 5 ≤ attempts
    · rw [handleLogin, if_neg c1] at h
      simp only [if_pos c2] at h
      cases h
    · cases hfind : findRowByEmail rows (jsToLower (jsTrim emailIn)) with
      | none =>
        rw [handleLogin, if_neg c1] at h
        simp only [if_neg c2] at h
        rw [hfind] at h
        cases h
      | some x =>
        obtain ⟨i, row⟩ := x
        rw [handleLogin, if_neg c1] at h ⊢
        simp only [if_neg c2] at h ⊢
        rw [hfind] at h ⊢
        dsimp only at h ⊢
        by_cases s1 : jsToLower (jsTrim row.status) = "pending"
        · rw [if_pos s1] at h; cases h
        · rw [if_neg s1] at h ⊢
          by_cases s2 : jsToLower (jsTrim row.status) = "suspended"
          · rw [if_pos s2] at h; cases h
          · rw [if_neg s2] at h ⊢
            by_cases s3 : jsToLower (jsTrim row.status) = "rejected"
            · rw [if_pos s3] at h; cases h
            · rw [if_neg s3] at h ⊢
              by_cases s4 : jsToLower (jsTrim row.status) = "blocked"
              · rw [if_pos s4] at h; cases h
              · rw [if_neg s4] at h ⊢
                by_cases s5 : jsToLower (jsTrim row.status) ≠ "approved"
                · rw [if_pos s5] at h; cases h
                · rw [if_neg s5] at h ⊢
                  by_cases s6 : hashPassword digest passwordIn row.salt ≠
                      row.passwordHash
                  · rw [if_pos s6] at h; cases h
                  · rw [if_neg s6]
                    exact ⟨i, row, rfl, rfl⟩

/-- Evaluation of a login that passes every check. -/
theorem handleLogin_eval (digest : String → List Nat) (rows : List RegRow)
    (emailIn passwordIn : String) (attempts : Nat) (newToken nowIso : String)
    (i : Nat) (row : RegRow)
    (c1 : emailIn ≠ "") (c1b : passwordIn ≠ "") (c2 : attempts < 5)
    (hfind : findRowByEmail rows (jsToLower (jsTrim emailIn)) = some (i, row))
    (happr : jsToLower (jsTrim row.status) = "approved")
    (hhash : hashPassword digest passwordIn row.salt = row.passwordHash) :
    handleLogin digest rows emailIn passwordIn attempts newToken nowIso =
      (rows.set i { row with lastLogin := nowIso, sessionToken := newToken },
       ⟨true, none, none, none, some row.studentId, some row.name,
        some (jsToLower (jsTrim emailIn)), some newToken⟩) := by
  rw [handleLogin, if_neg (not_or.mpr ⟨c1, c1b⟩)]
  simp only [if_neg (by omega : ¬5 ≤ attempts)]
  rw [hfind]
  dsimp only
  rw [if_neg (by rw [happr]; decide), if_neg (by rw [happr]; decide),
    if_neg (by rw [happr]; decide), if_neg (by rw [happr]; decide),
    if_neg (not_not_intro happr), if_neg (not_not_intro hhash)]

/-- Updating the found row with one carrying the same student id keeps
findRowById pointing at the same position with the new row. -/
theorem findRowById_set (rows : List RegRow) (sid : String) (i : Nat)
    (row row' : RegRow) (hfind : findRowById rows sid = some (i, row))
    (hid : row'.studentId = row.studentId) :
    findRowById (rows.set i row') sid = some (i, row') := by
  rw [findRowById] at hfind ⊢
  by_cases htrim : jsTrim sid = ""
  · rw [if_pos htrim] at hfind
    cases hfind
  · rw [if_neg htrim] at hfind ⊢
    have hspec := findRowBy_spec _ rows i row hfind
    refine findRowBy_set _ rows i row row' hfind ?_
    simpa [hid] using hspec.2

/-- Evaluation of checkSession when the student is found and approved. -/
theorem handleCheckSession_eval (rows : List RegRow) (sid tok : String)
    (i : Nat) (row : RegRow)
    (hsid : sid ≠ "") (htok : tok ≠ "")
    (hfind : findRowById rows sid = some (i, row))
    (happr : jsToLower (jsTrim row.status) = "approved") :
    handleCheckSession rows sid tok =
      if row.sessionToken = tok then ⟨true, none⟩
      else ⟨false, some "session_invalid"⟩ := by
  rw [handleCheckSession, if_neg (not_or.mpr ⟨hsid, htok⟩), hfind]
  dsimp only
  rw [if_neg (not_not_intro happr)]

/-- C2 counterexample: an approved student whose stored
activeSessionToken is the empty string (the state written by logout and
by registration).  A checkSession call presenting the equal empty token
fails with missing_params, so the call does not succeed exactly when the
presented token equals the stored one. -/
theorem handleCheckSession_empty_token_counterexample :
    ((⟨"S1", "n", "e@x.com", "h", "s", "approved", "student", "c", "", ""⟩ :
        RegRow).sessionToken = "" ∧
      findRowById
        [⟨"S1", "n", "e@x.com", "h", "s", "approved", "student", "c", "", ""⟩]
        "S1" =
        some (0,
          ⟨"S1", "n", "e@x.com", "h", "s", "approved", "student", "c", "", ""⟩) ∧
      jsToLower (jsTrim
        (⟨"S1", "n", "e@x.com", "h", "s", "approved", "student", "c", "", ""⟩ :
          RegRow).status) = "approved") ∧
    (handleCheckSession
        [⟨"S1", "n", "e@x.com", "h", "s", "approved", "student", "c", "", ""⟩]
        "S1" "").success = false := by
  decide

/-- C2 (amended with nonempty presented tokens): for a found student with
approved status, checkSession succeeds exactly when the nonempty
presented token equals the stored activeSessionToken; every successful
login overwrites the stored token of the found row with the freshly
generated one and returns it; two distinct tokens never both validate;
and after a second login with a fresh token distinct from the stored one,
the fresh token validates while the previous one fails. -/
theorem singleDevice_session_enforcement :
    (∀ (rows : List RegRow) (sid tok : String) (i : Nat) (row : RegRow),
      sid ≠ "" → tok ≠ "" →
      findRowById rows sid = some (i, row) →
      jsToLower (jsTrim row.status) = "approved" →
      ((handleCheckSession rows sid tok).success = true ↔
        row.sessionToken = tok)) ∧
    (∀ (digest : String → List Nat) (rows : List RegRow)
       (emailIn passwordIn : String) (attempts : Nat) (newToken nowIso : String),
      (handleLogin digest rows emailIn passwordIn attempts newToken
          nowIso).2.success = true →
      ∃ i row,
        findRowByEmail rows (jsToLower (jsTrim emailIn)) = some (i, row) ∧
        handleLogin digest rows emailIn passwordIn attempts newToken nowIso =
          (rows.set i
            { row with lastLogin := nowIso, sessionToken := newToken },
           ⟨true, none, none, none, some row.studentId, some row.name,
            some (jsToLower (jsTrim emailIn)), some newToken⟩)) ∧
    (∀ (rows : List RegRow) (sid t1 t2 : String), t1 ≠ t2 →
      ¬((handleCheckSession rows sid t1).success = true ∧
        (handleCheckSession rows sid t2).success = true)) ∧
    (∀ (digest : String → List Nat) (rows : List RegRow)
       (emailIn passwordIn : String) (attempts : Nat)
       (newToken nowIso sid : String) (i : Nat) (row : RegRow),
      emailIn ≠ "" → passwordIn ≠ "" → attempts < 5 →
      findRowByEmail rows (jsToLower (jsTrim emailIn)) = some (i, row) →
      findRowById rows sid = some (i, row) →
      jsToLower (jsTrim row.status) = "approved" →
      hashPassword digest passwordIn row.salt = row.passwordHash →
      sid ≠ "" → newToken ≠ "" → row.sessionToken ≠ "" →
      newToken ≠ row.sessionToken →
      (handleCheckSession
          (handleLogin digest rows emailIn passwordIn attempts newToken
            nowIso).1 sid newToken).success = true ∧
      (handleCheckSession
          (handleLogin digest rows emailIn passwordIn attempts newToken
            nowIso).1 sid row.sessionToken).success = false) := by
  refine ⟨?_, ?_, ?_, ?_⟩
  · intro rows sid tok i row hsid htok hfind happr
    rw [handleCheckSession_eval rows sid tok i row hsid htok hfind happr]
    constructor
    · intro h
      by_cases hc : row.sessionToken = tok
      · exact hc
      · rw [if_neg hc] at h
        cases h
    · intro h
      rw [if_pos h]
  · exact handleLogin_success_overwrites
  · intro rows sid t1 t2 hne ⟨h1, h2⟩
    obtain ⟨i1, row1, hf1, _, ht1⟩ :=
      handleCheckSession_success_token rows sid t1 h1
    obtain ⟨i2, row2, hf2, _, ht2⟩ :=
      handleCheckSession_success_token rows sid t2 h2
    rw [hf1] at hf2
    injection hf2 with hf3
    injection hf3 with hf4 hf5
    apply hne
    rw [← ht1, ← ht2, hf5]
  · intro digest rows emailIn passwordIn attempts newToken nowIso sid i row
      c1 c1b c2 hfindE hfindI happr hhash hsid hnewTok holdTok hdiff
    rw [handleLogin_eval digest rows emailIn passwordIn attempts newToken
      nowIso i row c1 c1b c2 hfindE happr hhash]
    have hfind' := findRowById_set rows sid i row
      { row with lastLogin := nowIso, sessionToken := newToken } hfindI rfl
    have happr' : jsToLower (jsTrim ({ row with lastLogin := nowIso, sessionToken := newToken } : RegRow).status) = "approved" := happr
    constructor
    · rw [show ((rows.set i { row with lastLogin := nowIso, sessionToken := newToken },
          (⟨true, none, none, none, some row.studentId, some row.name,
            some (jsToLower (jsTrim emailIn)), some newToken⟩ : LoginResp)).1 =
          rows.set i { row with lastLogin := nowIso, sessionToken := newToken }) from rfl]
      rw [handleCheckSession_eval _ sid newToken i _ hsid hnewTok hfind' happr']
      rw [if_pos rfl]
    · rw [show ((rows.set i { row with lastLogin := nowIso, sessionToken := newToken },
          (⟨true, none, none, none, some row.studentId, some row.name,
            some (jsToLower (jsTrim emailIn)), some newToken⟩ : LoginResp)).1 =
          rows.set i { row with lastLogin := nowIso, sessionToken := newToken }) from rfl]
      rw [handleCheckSession_eval _ sid row.sessionToken i _ hsid holdTok
        hfind' happr']
      have hcond : ¬(({ row with lastLogin := nowIso, sessionToken := newToken } : RegRow).sessionToken =
          row.sessionToken) := hdiff
      rw [if_neg hcond]

/-- Witness for C2 at concrete inputs: one approved student holding token
t1; a login from a second device issues t2; afterwards t2 validates and
t1 fails. -/
theorem singleDevice_session_enforcement_witness :
    (handleCheckSession
        (handleLogin (fun s => [s.length % 256])
          [⟨"S1", "N", "e@x.com", "08", "s", "approved", "student", "c", "",
            "t1"⟩]
          "e@x.com" "pw1234" 0 "t2" "now").1 "S1" "t2").success = true ∧
    (handleCheckSession
        (handleLogin (fun s => [s.length % 256])
          [⟨"S1", "N", "e@x.com", "08", "s", "approved", "student", "c", "",
            "t1"⟩]
          "e@x.com" "pw1234" 0 "t2" "now").1 "S1" "t1").success = false := by
  have h := singleDevice_session_enforcement.2.2.2 (fun s => [s.length % 256])
    [⟨"S1", "N", "e@x.com", "08", "s", "approved", "student", "c", "", "t1"⟩]
    "e@x.com" "pw1234" 0 "t2" "now" "S1" 0
    ⟨"S1", "N", "e@x.com", "08", "s", "approved", "student", "c", "", "t1"⟩
    (by decide) (by decide) (by decide) (by decide) (by decide) (by decide)
    (by decide) (by decide) (by decide) (by decide) (by decide)
  exact h

/-- A successful login also certifies the found row: approved status and
a matching password hash, besides the overwritten sheet. -/
theorem handleLogin_success_full (digest : String → List Nat)
    (rows : List RegRow) (emailIn passwordIn : String) (attempts : Nat)
    (newToken nowIso : String)
    (h : (handleLogin digest rows emailIn passwordIn attempts newToken
            nowIso).2.success = true) :
    ∃ i row,
      findRowByEmail rows (jsToLower (jsTrim emailIn)) = some (i, row) ∧
      jsToLower (jsTrim row.status) = "approved" ∧
      hashPassword digest passwordIn row.salt = row.passwordHash := by
  by_cases c1 : emailIn = "" ∨ passwordIn = ""
  · rw [handleLogin, if_pos c1] at h
    cases h
  · by_cases c2 : 5 ≤ attempts
    · rw [handleLogin, if_neg c1] at h
      simp only [if_pos c2] at h
      cases h
    · cases hfind : findRowByEmail rows (jsToLower (jsTrim emailIn)) with
      | none =>
        rw [handleLogin, if_neg c1] at h
        simp only [if_neg c2] at h
        rw [hfind] at h
        cases h
      | some x =>
        obtain ⟨i, row⟩ := x
        rw [handleLogin, if_neg c1] at h
        simp only [if_neg c2] at h
        rw [hfind] at h
        dsimp only at h
        by_cases s1 : jsToLower (jsTrim row.status) = "pending"
        · rw [if_pos s1] at h; cases h
        · rw [if_neg s1] at h
          by_cases s2 : jsToLower (jsTrim row.status) = "suspended"
          · rw [if_pos s2] at h; cases h
          · rw [if_neg s2] at h
            by_cases s3 : jsToLower (jsTrim row.status) = "rejected"
            · rw [if_pos s3] at h; cases h
            · rw [if_neg s3] at h
              by_cases s4 : jsToLower (jsTrim row.status) = "blocked"
              · rw [if_pos s4] at h; cases h
              · rw [if_neg s4] at h
                by_cases s5 : jsToLower (jsTrim row.status) ≠ "approved"
                · rw [if_pos s5] at h; cases h
                · rw [if_neg s5] at h
                  push_neg at s5
                  by_cases s6 : hashPassword digest passwordIn row.salt ≠
                      row.passwordHash
                  · rw [if_pos s6] at h; cases h
                  · push_neg at s6
                    exact ⟨i, row, rfl, s5, s6⟩

/-- The login response never carries a session token unless the call
succeeded. -/
theorem handleLogin_token_or_success (digest : String → List Nat)
    (rows : List RegRow) (emailIn passwordIn : String) (attempts : Nat)
    (newToken nowIso : String) :
    (handleLogin digest rows emailIn passwordIn attempts newToken
        nowIso).2.activeSessionToken = none ∨
    (handleLogin digest rows emailIn passwordIn attempts newToken
        nowIso).2.success = true := by
  by_cases c1 : emailIn = "" ∨ passwordIn = ""
  · rw [handleLogin, if_pos c1]
    exact Or.inl rfl
  · by_cases c2 : 5 ≤ attempts
    · rw [handleLogin, if_neg c1]
      simp only [if_pos c2]
      exact Or.inl rfl
    · cases hfind : findRowByEmail rows (jsToLower (jsTrim emailIn)) with
      | none =>
        rw [handleLogin, if_neg c1]
        simp only [if_neg c2]
        rw [hfind]
        exact Or.inl rfl
      | some x =>
        obtain ⟨i, row⟩ := x
        rw [handleLogin, if_neg c1]
        simp only [if_neg c2]
        rw [hfind]
        dsimp only
        by_cases s1 : jsToLower (jsTrim row.status) = "pending"
        · rw [if_pos s1]; exact Or.inl rfl
        · rw [if_neg s1]
          by_cases s2 : jsToLower (jsTrim row.status) = "suspended"
          · rw [if_pos s2]; exact Or.inl rfl
          · rw [if_neg s2]
            by_cases s3 : jsToLower (jsTrim row.status) = "rejected"
            · rw [if_pos s3]; exact Or.inl rfl
            · rw [if_neg s3]
              by_cases s4 : jsToLower (jsTrim row.status) = "blocked"
              · rw [if_pos s4]; exact Or.inl rfl
              · rw [if_neg s4]
                by_cases s5 : jsToLower (jsTrim row.status) ≠ "approved"
                · rw [if_pos s5]; exact Or.inl rfl
                · rw [if_neg s5]
                  by_cases s6 : hashPassword digest passwordIn row.salt ≠
                      row.passwordHash
                  · rw [if_pos s6]; exact Or.inl rfl
                  · rw [if_neg s6]; exact Or.inr rfl

/-- Evaluation of a login that reaches a non-approved status branch. -/
theorem handleLogin_status_eval (digest : String → List Nat)
    (rows : List RegRow) (emailIn passwordIn : String) (attempts : Nat)
    (newToken nowIso : String) (i : Nat) (row : RegRow)
    (c1 : emailIn ≠ "") (c1b : passwordIn ≠ "") (c2 : attempts < 5)
    (hfind : findRowByEmail rows (jsToLower (jsTrim emailIn)) = some (i, row)) :
    (jsToLower (jsTrim row.status) = "pending" →
      handleLogin digest rows emailIn passwordIn attempts newToken nowIso =
        (rows, loginFailStatus "pending"
          "Account pending approval. Please contact your teacher."
          "ACCOUNT_PENDING")) ∧
    (jsToLower (jsTrim row.status) = "suspended" →
      handleLogin digest rows emailIn passwordIn attempts newToken nowIso =
        (rows, loginFailStatus "suspended"
          "Account suspended. Contact administrator." "ACCOUNT_SUSPENDED")) ∧
    (jsToLower (jsTrim row.status) = "rejected" →
      handleLogin digest rows emailIn passwordIn attempts newToken nowIso =
        (rows, loginFailStatus "rejected"
          "Account rejected. Contact administrator." "ACCOUNT_REJECTED")) ∧
    (jsToLower (jsTrim row.status) = "blocked" →
      handleLogin digest rows emailIn passwordIn attempts newToken nowIso =
        (rows, loginFailStatus "blocked"
          "Account blocked. Contact administrator." "ACCOUNT_BLOCKED")) := by
  refine ⟨?_, ?_, ?_, ?_⟩ <;> intro hst <;>
    rw [handleLogin, if_neg (not_or.mpr ⟨c1, c1b⟩)] <;>
    simp only [if_neg (by omega : ¬5 ≤ attempts)] <;>
    rw [hfind] <;> dsimp only
  · rw [if_pos hst]
  · rw [if_neg (by rw [hst]; decide), if_pos hst]
  · rw [if_neg (by rw [hst]; decide), if_neg (by rw [hst]; decide),
      if_pos hst]
  · rw [if_neg (by rw [hst]; decide), if_neg (by rw [hst]; decide),
      if_neg (by rw [hst]; decide), if_pos hst]

/-- Evaluation of a login whose password hash does not match. -/
theorem handleLogin_wrong_password_eval (digest : String → List Nat)
    (rows : List RegRow) (emailIn passwordIn : String) (attempts : Nat)
    (newToken nowIso : String) (i : Nat) (row : RegRow)
    (c1 : emailIn ≠ "") (c1b : passwordIn ≠ "") (c2 : attempts < 5)
    (hfind : findRowByEmail rows (jsToLower (jsTrim emailIn)) = some (i, row))
    (happr : jsToLower (jsTrim row.status) = "approved")
    (hhash : hashPassword digest passwordIn row.salt ≠ row.passwordHash) :
    handleLogin digest rows emailIn passwordIn attempts newToken nowIso =
      (rows, loginFail "Invalid email or password." "INVALID_CREDENTIALS") := by
  rw [handleLogin, if_neg (not_or.mpr ⟨c1, c1b⟩)]
  simp only [if_neg (by omega : ¬5 ≤ attempts)]
  rw [hfind]
  dsimp only
  rw [if_neg (by rw [happr]; decide), if_neg (by rw [happr]; decide),
    if_neg (by rw [happr]; decide), if_neg (by rw [happr]; decide),
    if_neg (not_not_intro happr), if_pos hhash]

/-- A successful registration appends exactly one pending row built from
the trimmed inputs, the generated id and salt, and the salted hash. -/
theorem handleRegister_success_eval (digest : String → List Nat)
    (rows : List RegRow) (nameIn emailIn passwordIn : String)
    (newId salt nowIso : String)
    (h : (handleRegister digest rows nameIn emailIn passwordIn newId salt
            nowIso).2.success = true) :
    handleRegister digest rows nameIn emailIn passwordIn newId salt nowIso =
      (rows ++ [{ studentId := newId, name := jsTrim nameIn,
                  email := jsToLower (jsTrim emailIn),
                  passwordHash := hashPassword digest passwordIn salt,
                  salt := salt, status := "pending", role := "student",
                  createdAt := nowIso, lastLogin := "", sessionToken := "" }],
       ⟨true, none, none,
        some "Registration submitted. Await teacher approval."⟩) := by
  by_cases c1 : nameIn = "" ∨ emailIn = "" ∨ passwordIn = ""
  · rw [handleRegister, if_pos c1] at h
    cases h
  · by_cases c4 : passwordIn.length < 6
    · rw [handleRegister, if_neg c1] at h
      simp only [if_pos c4] at h
      cases h
    · cases hfind : findRowByEmail rows (jsToLower (jsTrim emailIn)) with
      | some x =>
        rw [handleRegister, if_neg c1] at h
        simp only [if_neg c4] at h
        rw [hfind] at h
        dsimp only at h
        cases h
      | none =>
        rw [handleRegister, if_neg c1]
        simp only [if_neg c4]
        rw [hfind]

/-- A failed registration leaves the REGISTRATION sheet unchanged. -/
theorem handleRegister_rows_or_success (digest : String → List Nat)
    (rows : List RegRow) (nameIn emailIn passwordIn : String)
    (newId salt nowIso : String) :
    (handleRegister digest rows nameIn emailIn passwordIn newId salt
        nowIso).1 = rows ∨
    (handleRegister digest rows nameIn emailIn passwordIn newId salt
        nowIso).2.success = true := by
  by_cases c1 : nameIn = "" ∨ emailIn = "" ∨ passwordIn = ""
  · rw [handleRegister, if_pos c1]
    exact Or.inl (by trivial)
  · by_cases c4 : passwordIn.length < 6
    · rw [handleRegister, if_neg c1]
      simp only [if_pos c4]
      exact Or.inl (by trivial)
    · cases hfind : findRowByEmail rows (jsToLower (jsTrim emailIn)) with
      | some x =>
        rw [handleRegister, if_neg c1]
        simp only [if_neg c4]
        rw [hfind]
        exact Or.inl (by trivial)
      | none =>
        rw [handleRegister, if_neg c1]
        simp only [if_neg c4]
        rw [hfind]
        exact Or.inr rfl

/-- C5: backend registration appends the new account with status pending;
login succeeds only for an account whose normalized status is approved;
pending, suspended, rejected and blocked accounts receive the
corresponding failure response; and no session token is issued on
failure. -/
theorem admin_approval_workflow :
    (∀ (digest : String → List Nat) (rows : List RegRow)
       (nameIn emailIn passwordIn newId salt nowIso : String),
      (handleRegister digest rows nameIn emailIn passwordIn newId salt
          nowIso).2.success = true →
      handleRegister digest rows nameIn emailIn passwordIn newId salt nowIso =
        (rows ++ [{ studentId := newId, name := jsTrim nameIn,
                    email := jsToLower (jsTrim emailIn),
                    passwordHash := hashPassword digest passwordIn salt,
                    salt := salt, status := "pending", role := "student",
                    createdAt := nowIso, lastLogin := "",
                    sessionToken := "" }],
         ⟨true, none, none,
          some "Registration submitted. Await teacher approval."⟩)) ∧
    (∀ (digest : String → List Nat) (rows : List RegRow)
       (nameIn emailIn passwordIn newId salt nowIso : String),
      (handleRegister digest rows nameIn emailIn passwordIn newId salt
          nowIso).2.success = false →
      (handleRegister digest rows nameIn emailIn passwordIn newId salt
          nowIso).1 = rows) ∧
    (∀ (digest : String → List Nat) (rows : List RegRow)
       (emailIn passwordIn : String) (attempts : Nat)
       (newToken nowIso : String),
      (handleLogin digest rows emailIn passwordIn attempts newToken
          nowIso).2.success = true →
      ∃ i row,
        findRowByEmail rows (jsToLower (jsTrim emailIn)) = some (i, row) ∧
        jsToLower (jsTrim row.status) = "approved") ∧
    (∀ (digest : String → List Nat) (rows : List RegRow)
       (emailIn passwordIn : String) (attempts : Nat)
       (newToken nowIso : String) (i : Nat) (row : RegRow),
      emailIn ≠ "" → passwordIn ≠ "" → attempts < 5 →
      findRowByEmail rows (jsToLower (jsTrim emailIn)) = some (i, row) →
      (jsToLower (jsTrim row.status) = "pending" →
        handleLogin digest rows emailIn passwordIn attempts newToken nowIso =
          (rows, loginFailStatus "pending"
            "Account pending approval. Please contact your teacher."
            "ACCOUNT_PENDING")) ∧
      (jsToLower (jsTrim row.status) = "suspended" →
        handleLogin digest rows emailIn passwordIn attempts newToken nowIso =
          (rows, loginFailStatus "suspended"
            "Account suspended. Contact administrator."
            "ACCOUNT_SUSPENDED")) ∧
      (jsToLower (jsTrim row.status) = "rejected" →
        handleLogin digest rows emailIn passwordIn attempts newToken nowIso =
          (rows, loginFailStatus "rejected"
            "Account rejected. Contact administrator."
            "ACCOUNT_REJECTED")) ∧
      (jsToLower (jsTrim row.status) = "blocked" →
        handleLogin digest rows emailIn passwordIn attempts newToken nowIso =
          (rows, loginFailStatus "blocked"
            "Account blocked. Contact administrator."
            "ACCOUNT_BLOCKED"))) ∧
    (∀ (digest : String → List Nat) (rows : List RegRow)
       (emailIn passwordIn : String) (attempts : Nat)
       (newToken nowIso : String),
      (handleLogin digest rows emailIn passwordIn attempts newToken
          nowIso).2.success = false →
      (handleLogin digest rows emailIn passwordIn attempts newToken
          nowIso).2.activeSessionToken = none) := by
  refine ⟨handleRegister_success_eval, ?_, ?_, ?_, ?_⟩
  · intro digest rows nameIn emailIn passwordIn newId salt nowIso h
    rcases handleRegister_rows_or_success digest rows nameIn emailIn passwordIn
      newId salt nowIso with h0 | h0
    · exact h0
    · rw [h] at h0
      cases h0
  · intro digest rows emailIn passwordIn attempts newToken nowIso h
    obtain ⟨i, row, hfind, happr, _⟩ := handleLogin_success_full digest rows
      emailIn passwordIn attempts newToken nowIso h
    exact ⟨i, row, hfind, happr⟩
  · intro digest rows emailIn passwordIn attempts newToken nowIso i row
      c1 c1b c2 hfind
    exact handleLogin_status_eval digest rows emailIn passwordIn attempts
      newToken nowIso i row c1 c1b c2 hfind
  · intro digest rows emailIn passwordIn attempts newToken nowIso h
    rcases handleLogin_token_or_success digest rows emailIn passwordIn attempts
      newToken nowIso with h0 | h0
    · exact h0
    · rw [h] at h0
      cases h0

/-- Witness for C5 at concrete inputs: a successful registration appends
a pending row, and a login against that pending row receives the pending
failure. -/
theorem admin_approval_workflow_witness :
    handleRegister (fun s => [s.length % 256]) [] "Alice" "a@x.com" "secret1"
      "STU1" "salt" "now" =
      ([{ studentId := "STU1", name := jsTrim "Alice",
          email := jsToLower (jsTrim "a@x.com"),
          passwordHash :=
            hashPassword (fun s => [s.length % 256]) "secret1" "salt",
          salt := "salt", status := "pending", role := "student",
          createdAt := "now", lastLogin := "", sessionToken := "" }],
       ⟨true, none, none,
        some "Registration submitted. Await teacher approval."⟩) ∧
    handleLogin (fun s => [s.length % 256])
      [⟨"STU1", "Alice", "a@x.com", "0d", "salt", "pending", "student", "now",
        "", ""⟩]
      "a@x.com" "secret1" 0 "t" "now2" =
      ([⟨"STU1", "Alice", "a@x.com", "0d", "salt", "pending", "student", "now",
         "", ""⟩],
       loginFailStatus "pending"
         "Account pending approval. Please contact your teacher."
         "ACCOUNT_PENDING") := by
  constructor
  · exact admin_approval_workflow.1 (fun s => [s.length % 256]) [] "Alice"
      "a@x.com" "secret1" "STU1" "salt" "now" (by decide)
  · exact (admin_approval_workflow.2.2.2.1 (fun s => [s.length % 256])
      [⟨"STU1", "Alice", "a@x.com", "0d", "salt", "pending", "student", "now",
        "", ""⟩]
      "a@x.com" "secret1" 0 "t" "now2" 0
      ⟨"STU1", "Alice", "a@x.com", "0d", "salt", "pending", "student", "now",
        "", ""⟩
      (by decide) (by decide) (by decide) (by decide)).1 (by decide)

/-- C6: password hashing round-trip.  A successful registration stores
the salt and the hex-encoded digest of salt, colon, password, and
recomputing the hash from the stored salt and the same password
reproduces the stored hash; for a found approved account, login succeeds
exactly when the recomputed hash equals the stored one; and a submitted
password whose digest differs from the registered one is rejected with
the message Invalid email or password. -/
theorem password_hash_roundtrip :
    (∀ (digest : String → List Nat) (rows : List RegRow)
       (nameIn emailIn passwordIn newId salt nowIso : String),
      (handleRegister digest rows nameIn emailIn passwordIn newId salt
          nowIso).2.success = true →
      ∃ r : RegRow,
        (handleRegister digest rows nameIn emailIn passwordIn newId salt
            nowIso).1 = rows ++ [r] ∧
        r.salt = salt ∧
        r.passwordHash = hexEncode (digest (salt ++ ":" ++ passwordIn)) ∧
        hashPassword digest passwordIn r.salt = r.passwordHash) ∧
    (∀ (digest : String → List Nat) (rows : List RegRow)
       (emailIn passwordIn : String) (attempts : Nat)
       (newToken nowIso : String) (i : Nat) (row : RegRow),
      emailIn ≠ "" → passwordIn ≠ "" → attempts < 5 →
      findRowByEmail rows (jsToLower (jsTrim emailIn)) = some (i, row) →
      jsToLower (jsTrim row.status) = "approved" →
      ((handleLogin digest rows emailIn passwordIn attempts newToken
          nowIso).2.success = true ↔
        hashPassword digest passwordIn row.salt = row.passwordHash)) ∧
    (∀ (digest : String → List Nat) (rows : List RegRow)
       (emailIn password password2 : String) (attempts : Nat)
       (newToken nowIso : String) (i : Nat) (row : RegRow),
      emailIn ≠ "" → password2 ≠ "" → attempts < 5 →
      findRowByEmail rows (jsToLower (jsTrim emailIn)) = some (i, row) →
      jsToLower (jsTrim row.status) = "approved" →
      row.passwordHash = hashPassword digest password row.salt →
      (∀ b ∈ digest (row.salt ++ ":" ++ password), b < 256) →
      (∀ b ∈ digest (row.salt ++ ":" ++ password2), b < 256) →
      digest (row.salt ++ ":" ++ password2) ≠
        digest (row.salt ++ ":" ++ password) →
      handleLogin digest rows emailIn password2 attempts newToken nowIso =
        (rows, loginFail "Invalid email or password."
          "INVALID_CREDENTIALS")) := by
  refine ⟨?_, ?_, ?_⟩
  · intro digest rows nameIn emailIn passwordIn newId salt nowIso h
    rw [handleRegister_success_eval digest rows nameIn emailIn passwordIn newId
      salt nowIso h]
    exact ⟨_, rfl, rfl, rfl, rfl⟩
  · intro digest rows emailIn passwordIn attempts newToken nowIso i row
      c1 c1b c2 hfind happr
    constructor
    · intro h
      obtain ⟨i2, row2, hfind2, _, hhash2⟩ := handleLogin_success_full digest
        rows emailIn passwordIn attempts newToken nowIso h
      rw [hfind] at hfind2
      injection hfind2 with h3
      injection h3 with h4 h5
      rw [← h5] at hhash2
      exact hhash2
    · intro hhash
      rw [handleLogin_eval digest rows emailIn passwordIn attempts newToken
        nowIso i row c1 c1b c2 hfind happr hhash]
  · intro digest rows emailIn password password2 attempts newToken nowIso i
      row c1 c1b c2 hfind happr hstore hb1 hb2 hdiff
    have hne : hashPassword digest password2 row.salt ≠ row.passwordHash := by
      intro heq
      rw [hstore] at heq
      exact hdiff (hexEncode_inj _ _ hb2 hb1 heq)
    exact handleLogin_wrong_password_eval digest rows emailIn password2
      attempts newToken nowIso i row c1 c1b c2 hfind happr hne

/-- Witness for C6 at concrete inputs: with a length-based digest, the
registered account logs in with the original password and a password
with a different digest is rejected. -/
theorem password_hash_roundtrip_witness :
    ((handleLogin (fun s => [s.length % 256])
        [⟨"S1", "N", "e@x.com", "08", "s", "approved", "student", "c", "",
          "t1"⟩]
        "e@x.com" "pw1234" 0 "t2" "now").2.success = true ↔
      hashPassword (fun s => [s.length % 256]) "pw1234" "s" = "08") ∧
    handleLogin (fun s => [s.length % 256])
      [⟨"S1", "N", "e@x.com", "08", "s", "approved", "student", "c", "",
        "t1"⟩]
      "e@x.com" "longerpw1" 0 "t2" "now" =
      ([⟨"S1", "N", "e@x.com", "08", "s", "approved", "student", "c", "",
         "t1"⟩],
       loginFail "Invalid email or password." "INVALID_CREDENTIALS") := by
  constructor
  · exact password_hash_roundtrip.2.1 (fun s => [s.length % 256])
      [⟨"S1", "N", "e@x.com", "08", "s", "approved", "student", "c", "",
        "t1"⟩]
      "e@x.com" "pw1234" 0 "t2" "now" 0
      ⟨"S1", "N", "e@x.com", "08", "s", "approved", "student", "c", "", "t1"⟩
      (by decide) (by decide) (by decide) (by decide) (by decide)
  · exact password_hash_roundtrip.2.2 (fun s => [s.length % 256])
      [⟨"S1", "N", "e@x.com", "08", "s", "approved", "student", "c", "",
        "t1"⟩]
      "e@x.com" "pw1234" "longerpw1" 0 "t2" "now" 0
      ⟨"S1", "N", "e@x.com", "08", "s", "approved", "student", "c", "", "t1"⟩
      (by decide) (by decide) (by decide) (by decide) (by decide) (by decide)
      (by decide) (by decide) (by decide)

/-!
backend/api.js: the offline queue (syncResult, retryQueue) with
MAX_RETRIES = 3, over the grammarhub_sync_queue localStorage list.
-/

/-- The saveResult payload built by API.syncResult. -/
structure Payload where
  studentId : String
  studentName : String
  subject : String
  level : String
  set : String
  score : Nat
  total : Nat
  timeTaken : Nat
  percentage : Nat
  timestamp : Nat
  date : String
deriving DecidableEq, Repr

/-- One queued item: the payload plus its retry counter. -/
structure QItem where
  payload : Payload
  retries : Nat
deriving DecidableEq, Repr

/-- MAX_RETRIES of backend/api.js. -/
def MAX_RETRIES : Nat := 3

/-- Outcome of the fetch inside API._sendPayload: an HTTP response with
its ok flag, or a network error. -/
inductive FetchResult where
  | ok (resOk : Bool)
  | networkError
deriving DecidableEq, Repr

/-- Success flag of API._sendPayload: true exactly on an OK HTTP
response; a non-OK status or a network error yield success false. -/
def sendPayloadSuccess : FetchResult → Bool
  | .ok true => true
  | .ok false => false
  | .networkError => false

/-- API.syncResult after the payload is built: send it; on success
invalidate the session dashboard cache; on failure append the payload
with retries 0 to the persisted queue.  Returns the success flag, the
new queue and the new cache-valid flag. -/
def syncResult (backendConfigured : Bool) (fetch : FetchResult)
    (payload : Payload) (queue : List QItem) (cacheValid : Bool) :
    Bool × List QItem × Bool :=
  if backendConfigured = false then (false, queue, cacheValid)
  else
    let success := sendPayloadSuccess fetch
    let cacheValid' := if success then false else cacheValid
    let queue' :=
      if success = false then queue ++ [{ payload := payload, retries := 0 }]
      else queue
    (success, queue', cacheValid')

/-- API.retryQueue: re-send every queued item; keep a failed item, with
its retry counter incremented, only while the incremented counter stays
below MAX_RETRIES; drop sent items. -/
def retryQueue (send : QItem → Bool) (queue : List QItem) : List QItem :=
  queue.foldl
    (fun remaining item =>
      if send item then remaining
      else
        let item' := { item with retries := item.retries + 1 }
        if item'.retries < MAX_RETRIES then remaining ++ [item']
        else remaining)
    []

/-- The retry fold is the filterMap that drops sent items and bumped
items at the retry limit. -/
theorem retryQueue_eq_filterMap (send : QItem → Bool) (queue : List QItem) :
    retryQueue send queue =
      queue.filterMap (fun item =>
        if send item then none
        else if item.retries + 1 < MAX_RETRIES then
          some { item with retries := item.retries + 1 }
        else none) := by
  have main : ∀ (t : List QItem) (acc : List QItem),
      t.foldl
        (fun remaining item =>
          if send item then remaining
          else
            let item' := { item with retries := item.retries + 1 }
            if item'.retries < MAX_RETRIES then remaining ++ [item']
            else remaining)
        acc =
      acc ++ t.filterMap (fun item =>
        if send item then none
        else if item.retries + 1 < MAX_RETRIES then
          some { item with retries := item.retries + 1 }
        else none) := by
    intro t
    induction t with
    | nil => intro acc; simp
    | cons x xs ih =>
      intro acc
      rw [List.foldl_cons, List.filterMap_cons]
      by_cases hs : send x
      · rw [if_pos hs]
        simp only [if_pos hs]
        exact ih acc
      · rw [if_neg hs]
        simp only [if_neg hs]
        by_cases hr : x.retries + 1 < MAX_RETRIES
        · simp only [if_pos hr]
          have h2 := ih (acc ++ [{ x with retries := x.retries + 1 }])
          rw [h2]
          simp
        · simp only [if_neg hr]
          exact ih acc
  simpa using main queue []

/-- C4: bounded retries.  retryQueue drops every item whose send
succeeds; a failed item has its counter incremented and is kept exactly
while the incremented counter stays below MAX_RETRIES = 3; consequently
a fresh item survives exactly two failing retry rounds and is gone after
the third. -/
theorem retryQueue_bounded :
    MAX_RETRIES = 3 ∧
    (∀ (send : QItem → Bool) (queue : List QItem),
      retryQueue send queue =
        queue.filterMap (fun item =>
          if send item then none
          else if item.retries + 1 < MAX_RETRIES then
            some { item with retries := item.retries + 1 }
          else none)) ∧
    (∀ p : Payload,
      retryQueue (fun _ => false) [⟨p, 0⟩] = [⟨p, 1⟩] ∧
      retryQueue (fun _ => false) (retryQueue (fun _ => false) [⟨p, 0⟩]) =
        [⟨p, 2⟩] ∧
      retryQueue (fun _ => false)
        (retryQueue (fun _ => false)
          (retryQueue (fun _ => false) [⟨p, 0⟩])) = []) := by
  refine ⟨rfl, retryQueue_eq_filterMap, ?_⟩
  intro p
  refine ⟨rfl, rfl, rfl⟩

/-- C7: result syncing on failure.  _sendPayload fails exactly on a
non-OK HTTP status or a network error; a failed syncResult returns
success false and appends the payload with retries 0 to the queue,
leaving the cache flag alone; a successful syncResult leaves the queue
alone and invalidates the cache. -/
theorem syncResult_failure_enqueues :
    (∀ fetch : FetchResult,
      sendPayloadSuccess fetch = false ↔
        (fetch = .ok false ∨ fetch = .networkError)) ∧
    (∀ (payload : Payload) (queue : List QItem) (cacheValid : Bool),
      syncResult true (.ok false) payload queue cacheValid =
        (false, queue ++ [{ payload := payload, retries := 0 }],
         cacheValid)) ∧
    (∀ (payload : Payload) (queue : List QItem) (cacheValid : Bool),
      syncResult true .networkError payload queue cacheValid =
        (false, queue ++ [{ payload := payload, retries := 0 }],
         cacheValid)) ∧
    (∀ (payload : Payload) (queue : List QItem) (cacheValid : Bool),
      syncResult true (.ok true) payload queue cacheValid =
        (true, queue, false)) := by
  refine ⟨?_, ?_, ?_, ?_⟩
  · intro fetch
    cases fetch with
    | ok b =>
      cases b with
      | true => simp [sendPayloadSuccess]
      | false => simp [sendPayloadSuccess]
    | networkError => simp [sendPayloadSuccess]
  · intro payload queue cacheValid
    rfl
  · intro payload queue cacheValid
    rfl
  · intro payload queue cacheValid
    rfl

/-!
js/engine.js: scoring of the MCQ and fill engines and _submitQuiz.  A
rendered question is modelled by its correct original option index and
the displayed order of original option indices after the shuffle; a
student answer is the displayed index of the selected option.
-/

/-- JavaScript Array.prototype.findIndex: the index of the first element
satisfying the predicate, or -1. -/
def jsFindIndex {α : Type} (p : α → Bool) : List α → Int
  | [] => -1
  | a :: t =>
    if p a then 0
    else
      let r := jsFindIndex p t
      if r < 0 then -1 else r + 1

/-- One rendered question: the correct original option index and the
displayed order of original option indices produced by the shuffle. -/
structure QuizQ where
  answer : Nat
  opts : List Nat
deriving DecidableEq, Repr

/-- The engine field of a subject configuration. -/
inductive EngineType where
  | mcq
  | fill
deriving DecidableEq, Repr

/-- _revealMCQ scoring for one question: the selected button scores one
exactly when its index is the recomputed newCorrectIdx, the findIndex of
the option whose original index is the answer. -/
def revealMCQScore (q : QuizQ) (selected : Nat) : Nat :=
  let newCorrectIdx : Int := jsFindIndex (fun o => o == q.answer) q.opts
  if (selected : Int) = newCorrectIdx then 1 else 0

/-- _revealFill scoring for one question: the selected pill scores one
exactly when its isCorrect flag, set at render time as origIdx equal to
the answer, is true. -/
def revealFillScore (q : QuizQ) (selected : Nat) : Nat :=
  match q.opts.get? selected with
  | some o => if o = q.answer then 1 else 0
  | none => 0

/-- Score of one answered question under the configured engine. -/
def questionScore (engine : EngineType) (q : QuizQ) (sel : Nat) : Nat :=
  match engine with
  | .mcq => revealMCQScore q sel
  | .fill => revealFillScore q sel

/-- The number of answered questions: Object.keys(answers).length. -/
def answeredCount (answers : List (Option Nat)) : Nat :=
  (answers.filter Option.isSome).length

/-- The score accumulated by the reveal loop of _submitQuiz. -/
def quizScore (engine : EngineType) (questions : List QuizQ)
    (answers : List (Option Nat)) : Nat :=
  (questions.zip answers).foldl
    (fun acc p =>
      acc + match p.2 with
            | some sel => questionScore engine p.1 sel
            | none => 0)
    0

/-- _submitQuiz: a no-op after a prior submission or while any question
is unanswered; otherwise lock submissions, score every question, and
save the result through Progress.saveResult.  Returns the updated local
store, the submitted flag, and the saved score and percentage. -/
def submitQuiz (engine : EngineType) (questions : List QuizQ)
    (answers : List (Option Nat)) (submitted : Bool) (store : LocalStore)
    (subject level setKey : String) (timeTaken : Nat) (date : String)
    (ts : Nat) : LocalStore × Bool × Option (Nat × Nat) :=
  if submitted then (store, submitted, none)
  else if answeredCount answers < questions.length then
    (store, submitted, none)
  else
    let score := quizScore engine questions answers
    let res := saveResult store subject level setKey score questions.length
      timeTaken date ts
    (res.1, true, some (score, res.2))

/-- The spec-side notion of a correctly answered question: the selected
displayed option carries the correct original index. -/
def selectedCorrect (q : QuizQ) (a : Option Nat) : Bool :=
  match a with
  | some sel => q.opts.get? sel == some q.answer
  | none => false

/-- findIndex of the unique occurrence: over a duplicate-free list, the
displayed index equals the findIndex of the answer exactly when the
entry at that index is the answer. -/
theorem jsFindIndex_eq_iff (l : List Nat) (a : Nat) (hnd : l.Nodup)
    (sel : Nat) :
    (jsFindIndex (fun o => o == a) l = (sel : Int)) ↔
      l.get? sel = some a := by
  induction l generalizing sel with
  | nil =>
    simp only [jsFindIndex, List.get?_nil]
    constructor
    · intro h
      omega
    · intro h
      cases h
  | cons b t ih =>
    rw [List.nodup_cons] at hnd
    simp only [jsFindIndex]
    by_cases hb : b = a
    · simp only [if_pos (beq_iff_eq.mpr hb)]
      cases sel with
      | zero =>
        simp [hb]
      | succ j =>
        simp only [List.get?_cons_succ]
        constructor
        · intro h
          exfalso
          omega
        · intro h
          exfalso
          exact hnd.1 (hb ▸ List.get?_mem h)
    · simp only [if_neg (show ¬((b == a) = true) by simpa using hb)]
      cases sel with
      | zero =>
        simp only [List.get?_cons_zero]
        constructor
        · intro h
          by_cases hr : jsFindIndex (fun o => o == a) t < 0
          · rw [if_pos hr] at h
            omega
          · rw [if_neg hr] at h
            omega
        · intro h
          exact absurd (Option.some.injEq _ _ ▸ h) hb
      | succ j =>
        simp only [List.get?_cons_succ]
        rw [← ih hnd.2 j]
        by_cases hr : jsFindIndex (fun o => o == a) t < 0
        · rw [if_pos hr]
          constructor
          · intro h
            omega
          · intro h
            omega
        · rw [if_neg hr]
          constructor
          · intro h
            omega
          · intro h
            omega

/-- MCQ reveal scoring agrees with the spec notion over duplicate-free
displayed options. -/
theorem revealMCQScore_eq (q : QuizQ) (sel : Nat) (hnd : q.opts.Nodup) :
    revealMCQScore q sel = if selectedCorrect q (some sel) then 1 else 0 := by
  simp only [revealMCQScore, selectedCorrect]
  by_cases h : q.opts.get? sel = some q.answer
  · rw [if_pos ((jsFindIndex_eq_iff q.opts q.answer hnd sel).mpr h).symm,
      if_pos (by simpa using h)]
  · rw [if_neg (fun hc =>
      h ((jsFindIndex_eq_iff q.opts q.answer hnd sel).mp hc.symm)),
      if_neg (by simpa using h)]

/-- Fill reveal scoring agrees with the spec notion. -/
theorem revealFillScore_eq (q : QuizQ) (sel : Nat) :
    revealFillScore q sel = if selectedCorrect q (some sel) then 1 else 0 := by
  rcases hget : q.opts.get? sel with _ | o <;>
    rw [List.get?_eq_getElem?] at hget
  · simp [revealFillScore, selectedCorrect, hget]
  · by_cases h : o = q.answer
    · simp [revealFillScore, selectedCorrect, hget, h]
    · simp [revealFillScore, selectedCorrect, hget, h]

/-- A fold adding an indicator counts the satisfying elements. -/
theorem foldl_add_indicator {α : Type} (l : List α) (f : α → Nat)
    (p : α → Bool) (h : ∀ x ∈ l, f x = if p x then 1 else 0) :
    l.foldl (fun acc x => acc + f x) 0 = l.countP p := by
  have main : ∀ (t : List α), (∀ x ∈ t, f x = if p x then 1 else 0) →
      ∀ acc : Nat, t.foldl (fun acc x => acc + f x) acc = acc + t.countP p := by
    intro t
    induction t with
    | nil => intro _ acc; simp
    | cons x xs ih =>
      intro ht acc
      rw [List.foldl_cons, List.countP_cons,
        ih (fun y hy => ht y (List.mem_cons_of_mem x hy)),
        ht x (List.mem_cons_self x xs)]
      by_cases hp : p x
      · simp [hp]
        omega
      · simp [hp]
  simpa using main l h 0

/-- The accumulated quiz score counts the correctly answered questions,
for the MCQ engine over duplicate-free displayed options and for the
fill engine unconditionally. -/
theorem quizScore_eq_countP (engine : EngineType) (questions : List QuizQ)
    (answers : List (Option Nat))
    (hnd : engine = .mcq → ∀ q ∈ questions, q.opts.Nodup) :
    quizScore engine questions answers =
      (questions.zip answers).countP (fun p => selectedCorrect p.1 p.2) := by
  apply foldl_add_indicator
  intro x hx
  obtain ⟨hq, _⟩ := List.of_mem_zip hx
  rcases ha : x.2 with _ | sel
  · simp [selectedCorrect, ha]
  · cases engine with
    | mcq =>
      simpa [questionScore] using revealMCQScore_eq x.1 sel (hnd rfl x.1 hq)
    | fill =>
      simpa [questionScore] using revealFillScore_eq x.1 sel

/-- C8: _submitQuiz is a no-op after a prior submission and while any
question is unanswered; once every question is answered it locks,
scores exactly the questions whose selected option is the correct
answer (MCQ over duplicate-free displayed options, fill always), and
saves and reports the percentage Math.round(score / questions.length *
100). -/
theorem submitQuiz_scoring :
    (∀ (engine : EngineType) (questions : List QuizQ)
       (answers : List (Option Nat)) (store : LocalStore)
       (subject level setKey : String) (timeTaken : Nat) (date : String)
       (ts : Nat),
      submitQuiz engine questions answers true store subject level setKey
        timeTaken date ts = (store, true, none)) ∧
    (∀ (engine : EngineType) (questions : List QuizQ)
       (answers : List (Option Nat)) (store : LocalStore)
       (subject level setKey : String) (timeTaken : Nat) (date : String)
       (ts : Nat),
      answeredCount answers < questions.length →
      submitQuiz engine questions answers false store subject level setKey
        timeTaken date ts = (store, false, none)) ∧
    (∀ (engine : EngineType) (questions : List QuizQ)
       (answers : List (Option Nat)) (store : LocalStore)
       (subject level setKey : String) (timeTaken : Nat) (date : String)
       (ts : Nat),
      answers.length = questions.length →
      (∀ a ∈ answers, a.isSome = true) →
      (engine = .mcq → ∀ q ∈ questions, q.opts.Nodup) →
      submitQuiz engine questions answers false store subject level setKey
        timeTaken date ts =
        ((saveResult store subject level setKey
            ((questions.zip answers).countP fun p => selectedCorrect p.1 p.2)
            questions.length timeTaken date ts).1,
         true,
         some
           ((questions.zip answers).countP fun p => selectedCorrect p.1 p.2,
            roundPct
              ((questions.zip answers).countP fun p => selectedCorrect p.1 p.2)
              questions.length))) := by
  refine ⟨?_, ?_, ?_⟩
  · intro engine questions answers store subject level setKey timeTaken date ts
    rfl
  · intro engine questions answers store subject level setKey timeTaken date ts
      h
    rw [submitQuiz, if_neg (by simp), if_pos h]
  · intro engine questions answers store subject level setKey timeTaken date ts
      hlen hall hnd
    have hfull : answeredCount answers = answers.length := by
      unfold answeredCount
      rw [List.filter_eq_self.mpr hall]
    have hnotlt : ¬(answeredCount answers < questions.length) := by
      rw [hfull, hlen]
      omega
    rw [submitQuiz, if_neg (by simp), if_neg hnotlt]
    rw [quizScore_eq_countP engine questions answers hnd]
    rfl

/-- Witness for C8 at a concrete quiz: two MCQ questions, one answered
correctly and one not; the saved score is 1 of 2 and the reported
percentage 50. -/
theorem submitQuiz_scoring_witness :
    (submitQuiz .mcq [⟨1, [1, 0]⟩, ⟨0, [2, 0, 1]⟩] [some 0, some 0] false
        ⟨fun _ _ _ => none, none⟩ "tenses" "high" "1" 9 "d" 3).2.2 =
      some (1, 50) := by
  have h := submitQuiz_scoring.2.2 .mcq [⟨1, [1, 0]⟩, ⟨0, [2, 0, 1]⟩]
    [some 0, some 0] ⟨fun _ _ _ => none, none⟩ "tenses" "high" "1" 9 "d" 3
    (by decide) (by decide) (by decide)
  rw [h]
  decide

/-!
js/engine.js question-set validation: validateQuestions filters the raw
JSON array, and init rejects a set in which no valid question remains.
Raw JSON values are modelled by a small value type whose objects carry
the three fields the validator inspects.
-/

/-- A raw JSON value as the validator sees it: null, boolean, number
(a rational, so Number.isInteger is a real test), string, array, or an
object with the q, options and answer fields. -/
inductive JVal where
  | null
  | bool (b : Bool)
  | num (x : ℚ)
  | str (s : String)
  | arr (elems : List JVal)
  | qobj (q : JVal) (options : JVal) (answer : JVal)

/-- The per-question validation predicate of validateQuestions: the
entry is a truthy object, q is a string with nonempty trim, options is
an array of at least two entries, and answer is an integer number with
0 <= answer < options.length. -/
def validQ : JVal → Bool
  | .qobj qf opts ans =>
      (match qf with
       | .str s => decide (0 < (jsTrim s).length)
       | _ => false) &&
      (match opts with
       | .arr l => decide (2 ≤ l.length)
       | _ => false) &&
      (match ans with
       | .num a =>
           decide (a.den = 1) && decide (0 ≤ a) &&
           (match opts with
            | .arr l => decide (a < (l.length : ℚ))
            | _ => false)
       | _ => false)
  | _ => false

/-- validateQuestions: keep only the valid entries of a raw array; a
non-array yields no questions. -/
def validateQuestions : JVal → List JVal
  | .arr l => l.filter validQ
  | _ => []

/-- Outcome of the engine init: an error screen or a started quiz. -/
inductive InitResult where
  | failed (msg : String)
  | started (questions : List JVal)

/-- The load path of init: a failed fetch shows the error screen; a set
whose JSON yields zero valid questions is rejected with an error message;
otherwise the quiz starts on the valid questions. -/
def engineInit (fetchOk : Bool) (raw : JVal) : InitResult :=
  if fetchOk = false then .failed "Set not found"
  else
    let qs := validateQuestions raw
    if qs.length = 0 then .failed "No valid questions found in this set."
    else .started qs

/-- C9: every question kept by validateQuestions is an object with a
string q of nonempty trim, an options array of at least two entries and
an integer answer with 0 <= answer < options.length, so
options[answer] is defined; and a set with zero valid questions is
rejected at load with an error message instead of starting an empty
quiz. -/
theorem validateQuestions_safety :
    (∀ (raw : JVal) (v : JVal), v ∈ validateQuestions raw →
      ∃ (s : String) (opts : List JVal) (a : ℚ),
        v = .qobj (.str s) (.arr opts) (.num a) ∧
        0 < (jsTrim s).length ∧ 2 ≤ opts.length ∧
        a.den = 1 ∧ 0 ≤ a ∧ a < (opts.length : ℚ) ∧
        (opts.get? a.num.toNat).isSome = true) ∧
    (∀ raw : JVal, validateQuestions raw = [] →
      engineInit true raw = .failed "No valid questions found in this set.") ∧
    (∀ (raw : JVal) (qs : List JVal), engineInit true raw = .started qs →
      qs = validateQuestions raw ∧ qs ≠ []) := by
  refine ⟨?_, ?_, ?_⟩
  · intro raw v hv
    cases raw with
    | arr l =>
      obtain ⟨hmem, hvq⟩ := List.mem_filter.mp hv
      cases v with
      | qobj qf opts ans =>
        cases qf with
        | str s =>
          cases opts with
          | arr lopts =>
            cases ans with
            | num a =>
              simp only [validQ, Bool.and_eq_true, decide_eq_true_eq] at hvq
              obtain ⟨⟨h1, h2⟩, ⟨hden, hnn⟩, hlt⟩ := hvq
              refine ⟨s, lopts, a, rfl, h1, h2, hden, hnn, hlt, ?_⟩
              have hq : (a.num : ℚ) = a := by
                have := Rat.num_div_den a
                rw [hden] at this
                simpa using this
              have hnum0 : 0 ≤ a.num := by
                rw [← Rat.num_nonneg] at hnn
                exact hnn
              have hnumlt : a.num < (lopts.length : Int) := by
                have : (a.num : ℚ) < (lopts.length : ℚ) := by
                  rw [hq]
                  exact hlt
                exact_mod_cast this
              have hidx : a.num.toNat < lopts.length := by omega
              rw [List.get?_eq_getElem?, List.getElem?_eq_getElem hidx]
              rfl
            | null => simp [validQ] at hvq
            | bool b => simp [validQ] at hvq
            | str s2 => simp [validQ] at hvq
            | arr l2 => simp [validQ] at hvq
            | qobj x y z => simp [validQ] at hvq
          | null => simp [validQ] at hvq
          | bool b => simp [validQ] at hvq
          | num x => simp [validQ] at hvq
          | str s2 => simp [validQ] at hvq
          | qobj x y z => simp [validQ] at hvq
        | null => simp [validQ] at hvq
        | bool b => simp [validQ] at hvq
        | num x => simp [validQ] at hvq
        | arr l2 => simp [validQ] at hvq
        | qobj x y z => simp [validQ] at hvq
      | null => simp [validQ] at hvq
      | bool b => simp [validQ] at hvq
      | num x => simp [validQ] at hvq
      | str s => simp [validQ] at hvq
      | arr l2 => simp [validQ] at hvq
    | null => simp [validateQuestions] at hv
    | bool b => simp [validateQuestions] at hv
    | num x => simp [validateQuestions] at hv
    | str s => simp [validateQuestions] at hv
    | qobj x y z => simp [validateQuestions] at hv
  · intro raw h
    rw [engineInit, if_neg (by decide)]
    simp only [h]
    rfl
  · intro raw qs h
    rw [engineInit, if_neg (by decide)] at h
    by_cases h0 : (validateQuestions raw).length = 0
    · simp only [if_pos h0] at h
      cases h
    · simp only [if_neg h0] at h
      injection h with h1
      subst h1
      exact ⟨rfl, by simpa using h0⟩

/-- Witness for C9 at a concrete set: one valid and one malformed
question; the valid one satisfies every bound, and an empty set is
rejected at load. -/
theorem validateQuestions_safety_witness :
    (∃ (s : String) (opts : List JVal) (a : ℚ),
      JVal.qobj (.str "Q1") (.arr [.str "a", .str "b"]) (.num 1) =
        .qobj (.str s) (.arr opts) (.num a) ∧
      0 < (jsTrim s).length ∧ 2 ≤ opts.length ∧
      a.den = 1 ∧ 0 ≤ a ∧ a < (opts.length : ℚ) ∧
      (opts.get? a.num.toNat).isSome = true) ∧
    engineInit true (JVal.arr []) =
      .failed "No valid questions found in this set." := by
  constructor
  · refine validateQuestions_safety.1
      (JVal.arr
        [JVal.qobj (.str "Q1") (.arr [.str "a", .str "b"]) (.num 1),
         JVal.qobj (.str " ") (.arr [.str "a"]) (.num 5)])
      (JVal.qobj (.str "Q1") (.arr [.str "a", .str "b"]) (.num 1)) ?_
    have hm : validateQuestions
        (JVal.arr
          [JVal.qobj (.str "Q1") (.arr [.str "a", .str "b"]) (.num 1),
           JVal.qobj (.str " ") (.arr [.str "a"]) (.num 5)]) =
        [JVal.qobj (.str "Q1") (.arr [.str "a", .str "b"]) (.num 1)] := rfl
    rw [hm]
    exact List.mem_cons_self _ _
  · exact validateQuestions_safety.2.1 (JVal.arr []) rfl
